import Mathlib

/-! Shallow embedding of the `btuin` layout-engine FFI module
(`src/layout-engine/src/lib.rs`): the fixed-stride style decoder
`style_from_slice`, the opcode interpreter `apply_ops_and_compute`, the
bulk-rebuild path `compute_layout_from_buffers`, the bidirectional node
registry (`nodes` / `node_id_map`) and the results extractor
`compute_results`.

Modelling conventions:
- `f32` values are modelled by `F32`: NaN or an exact rational.  The
  module itself performs only `is_nan` tests and saturating `as i32` /
  `as usize` casts on floats; every other float value flows through to
  the external solver untouched.
- The external flexbox solver (the `taffy` crate) is a black-box
  collaborator per the specification; we model exactly the interface
  the module uses (`new_leaf`, `set_style`, `set_children`, `remove`,
  `compute_layout`, `layout`), with explicit handle allocation (a
  monotone counter, matching taffy's never-reused slotmap keys).
  Computed geometry is never inspected by any property below, so
  `layout` reports a placeholder rectangle for every allocated node.
- Rust `HashMap`s are modelled as association lists with
  insert-replaces-key semantics; `HashMap` iteration order is
  unspecified in Rust and every property below is insensitive to it.
- Raw `(pointer, length)` buffer arguments are modelled by `CBuf`
  (a null pointer or the pointed-to data) plus the declared length,
  mirroring the `slice::from_raw_parts` calls at the boundary.
-/

namespace LayoutEngine

/-- Model of an `f32` value as observed by this module: NaN or a finite
value represented exactly as a rational. -/
inductive F32 where
  | nan : F32
  | val : ℚ → F32
deriving DecidableEq

/-- Rust `f32::is_nan`. -/
def F32.isNaN : F32 → Bool
  | .nan => true
  | .val _ => false

/-- Truncation of a rational toward zero (`Int.div` is T-division). -/
def ratTrunc (q : ℚ) : Int := q.num.tdiv (q.den : Int)

/-- Rust saturating `f32 as i32` cast: NaN goes to 0, finite values are
truncated toward zero and clamped to the `i32` range. -/
def F32.asI32 : F32 → Int
  | .nan => 0
  | .val q =>
    let t := ratTrunc q
    if t < -(2 ^ 31) then -(2 ^ 31)
    else if t > 2 ^ 31 - 1 then 2 ^ 31 - 1
    else t

/-- Rust saturating `f32 as usize` cast: NaN and negative values go to
0, finite values are truncated and clamped to the `usize` range. -/
def F32.asUsize : F32 → ℕ
  | .nan => 0
  | .val q =>
    let t := ratTrunc q
    if t < 0 then 0
    else if t > 2 ^ 64 - 1 then 2 ^ 64 - 1
    else t.toNat

/-- Rust `u32 as f32` cast used for the external id pushed into the
results buffer.  It is exact below `2^24`; the rounding performed above
that bound is irrelevant to every property below, which never inspects
large ids. -/
def F32.ofId (n : ℕ) : F32 := .val (n : ℚ)

/- Field order of the `StyleProp` `repr(C)` enum, which fixes the
index of each field inside a style record. -/
namespace StyleProp

def Display : ℕ := 0

def PositionType : ℕ := 1

def FlexDirection : ℕ := 2

def FlexWrap : ℕ := 3

def JustifyContent : ℕ := 4

def AlignItems : ℕ := 5

def AlignSelf : ℕ := 6

def FlexGrow : ℕ := 7

def FlexShrink : ℕ := 8

def FlexBasis : ℕ := 9

def Width : ℕ := 10

def Height : ℕ := 11

def MinWidth : ℕ := 12

def MinHeight : ℕ := 13

def MaxWidth : ℕ := 14

def MaxHeight : ℕ := 15

def MarginLeft : ℕ := 16

def MarginRight : ℕ := 17

def MarginTop : ℕ := 18

def MarginBottom : ℕ := 19

def PaddingLeft : ℕ := 20

def PaddingRight : ℕ := 21

def PaddingTop : ℕ := 22

def PaddingBottom : ℕ := 23

def GapRow : ℕ := 24

def GapColumn : ℕ := 25

def ChildrenCount : ℕ := 26

def ChildrenOffset : ℕ := 27

end StyleProp

/-- `STYLE_STRIDE = StyleProp::TotalProps as usize = 28`. -/
def STYLE_STRIDE : ℕ := 28

/-- `RESULT_STRIDE = 5`: js_id, x, y, width, height. -/
def RESULT_STRIDE : ℕ := 5

/-- `LAYOUT_ENGINE_ABI_VERSION`. -/
def LAYOUT_ENGINE_ABI_VERSION : ℕ := 2

/-- Taffy `FlexDirection` variants reachable from the decoder. -/
inductive FlexDirection where
  | Row | Column | RowReverse | ColumnReverse
deriving DecidableEq

/-- Taffy `JustifyContent` variants reachable from the decoder. -/
inductive JustifyContent where
  | FlexStart | FlexEnd | Center | SpaceBetween | SpaceAround | SpaceEvenly
deriving DecidableEq

/-- Taffy `AlignItems` variants reachable from the decoder. -/
inductive AlignItems where
  | FlexStart | FlexEnd | Center | Baseline | Stretch
deriving DecidableEq

/-- Taffy `Position` variants reachable from the decoder. -/
inductive Position where
  | Relative | Absolute
deriving DecidableEq

/-- The fields of a taffy `Style` that `style_from_slice` assigns.
`size_width` / `size_height` are `none` when left at the taffy default
(`Dimension::Auto`), i.e. exactly when the field is skipped because of
the NaN sentinel; every other listed field is assigned unconditionally.
Fields of the Rust `Style` the decoder never touches (display,
flex-wrap, align-self, flex-basis, min/max sizes) stay at their
defaults and are omitted. -/
structure Style where
  size_width : Option F32
  size_height : Option F32
  flex_direction : FlexDirection
  gap_width : F32
  gap_height : F32
  justify_content : JustifyContent
  align_items : AlignItems
  position : Position
  flex_grow : F32
  flex_shrink : F32
  margin_left : F32
  margin_right : F32
  margin_top : F32
  margin_bottom : F32
  padding_left : F32
  padding_right : F32
  padding_top : F32
  padding_bottom : F32
deriving DecidableEq

/-- The `match ... as i32` table for `style.flex_direction`. -/
def decodeFlexDirection (c : Int) : FlexDirection :=
  if c = 1 then .Column
  else if c = 2 then .RowReverse
  else if c = 3 then .ColumnReverse
  else .Row

/-- The `match ... as i32` table for `style.justify_content`. -/
def decodeJustifyContent (c : Int) : JustifyContent :=
  if c = 1 then .FlexEnd
  else if c = 2 then .Center
  else if c = 3 then .SpaceBetween
  else if c = 4 then .SpaceAround
  else if c = 5 then .SpaceEvenly
  else .FlexStart

/-- The `match ... as i32` table for `style.align_items`. -/
def decodeAlignItems (c : Int) : AlignItems :=
  if c = 0 then .FlexStart
  else if c = 1 then .FlexEnd
  else if c = 2 then .Center
  else if c = 3 then .Baseline
  else .Stretch

/-- The `match ... as i32` table for `style.position`. -/
def decodePosition (c : Int) : Position :=
  if c = 1 then .Absolute
  else .Relative

/-- `LayoutEngineState::style_from_slice`.  The Rust function indexes a
slice of length exactly `STYLE_STRIDE`; we read with `getD`, which
agrees with the source whenever the slice is at least that long (the
only way it is ever called). -/
def style_from_slice (s : List F32) : Style :=
  let get := fun i => s.getD i (F32.val 0)
  { size_width :=
      if (get StyleProp.Width).isNaN then none else some (get StyleProp.Width)
    size_height :=
      if (get StyleProp.Height).isNaN then none else some (get StyleProp.Height)
    flex_direction := decodeFlexDirection (get StyleProp.FlexDirection).asI32
    gap_width := get StyleProp.GapColumn
    gap_height := get StyleProp.GapRow
    justify_content := decodeJustifyContent (get StyleProp.JustifyContent).asI32
    align_items := decodeAlignItems (get StyleProp.AlignItems).asI32
    position := decodePosition (get StyleProp.PositionType).asI32
    flex_grow := get StyleProp.FlexGrow
    flex_shrink := get StyleProp.FlexShrink
    margin_left := get StyleProp.MarginLeft
    margin_right := get StyleProp.MarginRight
    margin_top := get StyleProp.MarginTop
    margin_bottom := get StyleProp.MarginBottom
    padding_left := get StyleProp.PaddingLeft
    padding_right := get StyleProp.PaddingRight
    padding_top := get StyleProp.PaddingTop
    padding_bottom := get StyleProp.PaddingBottom }

/-- Association-list lookup, modelling `HashMap::get`. -/
def lookupA {α : Type} (k : ℕ) : List (ℕ × α) → Option α
  | [] => none
  | (k2, v) :: t => if k = k2 then some v else lookupA k t

/-- Association-list key removal, modelling `HashMap::remove`. -/
def eraseA {α : Type} (k : ℕ) : List (ℕ × α) → List (ℕ × α)
  | [] => []
  | (k2, v) :: t => if k2 = k then eraseA k t else (k2, v) :: eraseA k t

/-- Association-list insertion with replace-on-collision semantics,
modelling `HashMap::insert`. -/
def insertA {α : Type} (k : ℕ) (v : α) (l : List (ℕ × α)) : List (ℕ × α) :=
  (k, v) :: eraseA k l

/-- A node of the black-box solver tree: the style it was given and its
current ordered child-handle list. -/
structure SNode where
  style : Style
  children : List ℕ
deriving DecidableEq

/-- Model of the black-box `TaffyTree`: a monotone handle allocator
plus the allocated nodes.  Taffy's slotmap keys are never reused, which
the counter reflects. -/
structure Solver where
  nextId : ℕ
  tree : List (ℕ × SNode)
deriving DecidableEq

/-- `TaffyTree::new_leaf`: allocate a fresh handle for a childless node
with the given style. -/
def Solver.newLeaf (s : Solver) (sty : Style) : ℕ × Solver :=
  (s.nextId, { nextId := s.nextId + 1, tree := insertA s.nextId ⟨sty, []⟩ s.tree })

/-- `TaffyTree::set_style`: replace the style of an allocated node
(no-op on an unknown handle, which never occurs in reachable use). -/
def Solver.setStyle (s : Solver) (h : ℕ) (sty : Style) : Solver :=
  { s with tree := s.tree.map (fun p =>
      (p.1, if p.1 = h then { p.2 with style := sty } else p.2)) }

/-- `TaffyTree::set_children`: the node `h` gets exactly the ordered
list `hs` as children, and each handle in `hs` is detached from any
previous parent. -/
def Solver.setChildren (s : Solver) (h : ℕ) (hs : List ℕ) : Solver :=
  { s with tree := s.tree.map (fun p =>
      (p.1, if p.1 = h then { p.2 with children := hs }
            else { p.2 with children := p.2.children.filter (fun c => decide (c ∉ hs)) })) }

/-- `TaffyTree::remove`: deallocate `h` and detach it from any parent;
the former children of `h` stay allocated (they are orphaned, not
removed). -/
def Solver.removeNode (s : Solver) (h : ℕ) : Solver :=
  { s with tree := (eraseA h s.tree).map (fun p =>
      (p.1, { p.2 with children := p.2.children.filter (fun c => decide (c ≠ h)) })) }

/-- A computed box as read back through `TaffyTree::layout`. -/
structure LayoutRect where
  x : F32
  y : F32
  width : F32
  height : F32
deriving DecidableEq

/-- `TaffyTree::layout`: `Ok` exactly on allocated handles.  The
numeric geometry the real solver computes is opaque to every property
in this file, so a placeholder box stands in for it. -/
def Solver.layoutOf (s : Solver) (h : ℕ) : Option LayoutRect :=
  (lookupA h s.tree).map (fun _ => ⟨F32.val 0, F32.val 0, F32.val 0, F32.val 0⟩)

/-- `TaffyTree::compute_layout`: runs the black-box flexbox algorithm;
it allocates or removes nothing, so the modelled solver state is
unchanged. -/
def Solver.computeLayout (s : Solver) (_r : ℕ) : Solver := s

/-- `TaffyTree::clear` (used only by the bulk-rebuild path): every node
is dropped.  The handle counter is kept monotone, which only renames
the opaque handle values taffy would hand out after a clear. -/
def Solver.clearTree (s : Solver) : Solver := { s with tree := [] }

/-- `LayoutEngineState`: the solver tree, the two registry maps
(external id to handle and handle to external id) and the reusable
results buffer. -/
structure EngineState where
  solver : Solver
  nodes : List (ℕ × ℕ)
  node_id_map : List (ℕ × ℕ)
  results_buffer : List F32
deriving DecidableEq

/-- `LayoutEngineState::new()`: empty maps, empty solver, empty
results buffer (capacity hints have no observable effect). -/
def initState : EngineState := ⟨⟨0, []⟩, [], [], []⟩

/-- `LayoutEngineState::compute_results`: run the solver rooted at
`root`, then clear the results buffer and push one 5-field record
`(external_id, x, y, width, height)` per entry of `node_id_map` whose
handle the solver still knows. -/
def compute_results (st : EngineState) (root : ℕ) : EngineState :=
  let s1 := st.solver.computeLayout root
  { st with
    solver := s1
    results_buffer := st.node_id_map.flatMap (fun p =>
      match s1.layoutOf p.1 with
      | some l => [F32.ofId p.2, l.x, l.y, l.width, l.height]
      | none => []) }

/-- Body of the `CreateLeaf` opcode after its checks: decode the style
record at `off`, create a solver leaf, register both directions. -/
def doCreate (styles : List F32) (st : EngineState) (id off : ℕ) : EngineState :=
  let style := style_from_slice ((styles.drop off).take STYLE_STRIDE)
  let hs := st.solver.newLeaf style
  { st with
    solver := hs.2
    nodes := insertA id hs.1 st.nodes
    node_id_map := insertA hs.1 id st.node_id_map }

/-- Body of the `UpdateStyle` opcode after its checks: decode the style
record at `off` and hand it to the solver for handle `h`. -/
def doUpdate (styles : List F32) (st : EngineState) (h off : ℕ) : EngineState :=
  let style := style_from_slice ((styles.drop off).take STYLE_STRIDE)
  { st with solver := st.solver.setStyle h style }

/-- Body of the `SetChildren` opcode after its checks. -/
def doSetChildren (st : EngineState) (h : ℕ) (hs : List ℕ) : EngineState :=
  { st with solver := st.solver.setChildren h hs }

/-- Body of the `RemoveNode` opcode: remove both registry directions
and the solver node if the id is registered, else do nothing. -/
def doRemove (st : EngineState) (id : ℕ) : EngineState :=
  match lookupA id st.nodes with
  | none => st
  | some h =>
    { st with
      nodes := eraseA id st.nodes
      node_id_map := eraseA h st.node_id_map
      solver := st.solver.removeNode h }

/-- Resolve every external id in `ids` through the forward registry
map; `none` as soon as one is unregistered (the `-18` path). -/
def resolveAll (m : List (ℕ × ℕ)) (ids : List ℕ) : Option (List ℕ) :=
  ids.mapM (fun c => lookupA c m)

/-- The `while i < ops.len()` interpreter loop of
`apply_ops_and_compute`, with the cursor-into-a-slice loop rendered as
consumption of the instruction-word list.  The four list patterns split
on how many words remain after the opcode, so the source's truncation
checks (`i + k > ops.len()`, codes `-10`/`-12`/`-15`/`-19`) become the
arity conditions of the patterns; within each arity the opcode dispatch
and the per-instruction checks are those of the source, in source
order.  Each arm either halts with that arm's error code (keeping the
current state: a failing instruction has made no mutation) or mutates
and continues with the remaining words.  Returns the state after the
last instruction it applied, and the error code if it halted early. -/
def runOps (styles : List F32) (children : List ℕ) :
    EngineState → List ℕ → EngineState × Option Int
  | st, [] => (st, none)
  | st, [op] =>
    if op = 1 then (st, some (-10))
    else if op = 2 then (st, some (-12))
    else if op = 3 then (st, some (-15))
    else if op = 4 then (st, some (-19))
    else (st, some (-20))
  | st, [op, w1] =>
    if op = 1 then (st, some (-10))
    else if op = 2 then (st, some (-12))
    else if op = 3 then (st, some (-15))
    else if op = 4 then runOps styles children (doRemove st w1) []
    else (st, some (-20))
  | st, [op, w1, w2] =>
    if op = 1 then
      if w2 + STYLE_STRIDE > styles.length then (st, some (-11))
      else runOps styles children (doCreate styles st w1 w2) []
    else if op = 2 then
      if w2 + STYLE_STRIDE > styles.length then (st, some (-13))
      else
        (lookupA w1 st.nodes).elim (st, some (-14))
          (fun h => runOps styles children (doUpdate styles st h w2) [])
    else if op = 3 then (st, some (-15))
    else if op = 4 then runOps styles children (doRemove st w1) [w2]
    else (st, some (-20))
  | st, op :: w1 :: w2 :: w3 :: rest =>
    if op = 1 then
      if w2 + STYLE_STRIDE > styles.length then (st, some (-11))
      else runOps styles children (doCreate styles st w1 w2) (w3 :: rest)
    else if op = 2 then
      if w2 + STYLE_STRIDE > styles.length then (st, some (-13))
      else
        (lookupA w1 st.nodes).elim (st, some (-14))
          (fun h => runOps styles children (doUpdate styles st h w2) (w3 :: rest))
    else if op = 3 then
      (lookupA w1 st.nodes).elim (st, some (-16)) (fun h =>
        if w2 + w3 > children.length then (st, some (-17))
        else
          (resolveAll st.nodes ((children.drop w2).take w3)).elim (st, some (-18))
            (fun hs => runOps styles children (doSetChildren st h hs) rest))
    else if op = 4 then runOps styles children (doRemove st w1) (w2 :: w3 :: rest)
    else (st, some (-20))

/-- `apply_ops_and_compute` after the boundary checks, working on the
decoded buffers: run the instruction stream; on success look up the
root (external id 0, code `-3` when absent) and extract results.
Returns the final engine state and the status code. -/
def applyOpsAndComputeSt (st : EngineState) (ops : List ℕ) (styles : List F32)
    (children : List ℕ) : EngineState × Int :=
  match runOps styles children st ops with
  | (st1, some e) => (st1, e)
  | (st1, none) =>
    match lookupA 0 st1.nodes with
    | none => (st1, -3)
    | some root => (compute_results st1 root, 0)

/-- A raw `(pointer, length)` buffer argument: a null pointer or the
pointed-to data. -/
inductive CBuf (α : Type) where
  | nullPtr : CBuf α
  | valid : List α → CBuf α

/-- The boundary pattern shared by every buffer argument: a zero
declared length yields the empty slice no matter the pointer; a null
pointer with a nonzero length yields that buffer's error code;
otherwise `slice::from_raw_parts` yields the pointed-to data. -/
def readBuf {α : Type} (b : CBuf α) (len : ℕ) (errCode : Int) : Except Int (List α) :=
  if len = 0 then .ok []
  else
    match b with
    | .nullPtr => .error errCode
    | .valid d => .ok d

/-- `apply_ops_and_compute`, boundary included: null engine is `-1`,
null ops / styles / children pointers with nonzero declared length are
`-6` / `-7` / `-8`, then the decoded buffers go to the interpreter.
Returns the engine state after the call next to the status code. -/
def apply_ops_and_compute (engine : Option EngineState)
    (ops : CBuf ℕ) (ops_len : ℕ) (styles : CBuf F32) (styles_len : ℕ)
    (children : CBuf ℕ) (children_len : ℕ) : Option EngineState × Int :=
  match engine with
  | none => (none, -1)
  | some st =>
    match readBuf ops ops_len (-6) with
    | .error e => (some st, e)
    | .ok opsL =>
      match readBuf styles styles_len (-7) with
      | .error e => (some st, e)
      | .ok stylesL =>
        match readBuf children children_len (-8) with
        | .error e => (some st, e)
        | .ok childrenL =>
          let r := applyOpsAndComputeSt st opsL stylesL childrenL
          (some r.1, r.2)

/-- One iteration of the first bulk-rebuild loop: create the leaf for
record `i` (external id `i`, style record at offset `i * STYLE_STRIDE`)
and register it. -/
def bulkCreateStep (nodesBuf : List F32) (acc : EngineState) (i : ℕ) : EngineState :=
  doCreate nodesBuf acc i (i * STYLE_STRIDE)

/-- One iteration of the second bulk-rebuild loop: read record `i`'s
`ChildrenCount` / `ChildrenOffset` fields (via the saturating
`as usize` casts), and when the count is positive, resolve the child id
run through the registry with `filter_map` — silently dropping ids that
resolve to no node — and hand the resolved handles to the solver. -/
def bulkChildrenStep (nodesBuf : List F32) (childrenBuf : List ℕ)
    (acc : EngineState) (i : ℕ) : EngineState :=
  let slice := (nodesBuf.drop (i * STYLE_STRIDE)).take STYLE_STRIDE
  let ccount := (slice.getD StyleProp.ChildrenCount (F32.val 0)).asUsize
  if ccount > 0 then
    let coff := (slice.getD StyleProp.ChildrenOffset (F32.val 0)).asUsize
    let hs := ((childrenBuf.drop coff).take ccount).filterMap
      (fun c => lookupA c acc.nodes)
    match lookupA i acc.nodes with
    | some h => { acc with solver := acc.solver.setChildren h hs }
    | none => acc
  else acc

/-- `compute_layout_from_buffers` after the boundary checks: reject a
node buffer whose length is not a multiple of the stride (`-2`), clear
both registry maps and the solver tree, create one leaf per record
(external id = record index), then wire up children from the
`ChildrenCount` / `ChildrenOffset` fields, silently dropping child ids
that resolve to no node (`filter_map`), then compute from root id 0
(`-3` when absent).  The source indexes the children buffer without a
bounds check (it would panic out of bounds); the model clips instead
and is only ever used in bounds below. -/
def computeLayoutFromBuffersSt (st : EngineState) (nodesBuf : List F32)
    (childrenBuf : List ℕ) : EngineState × Int :=
  let node_count := nodesBuf.length / STYLE_STRIDE
  if nodesBuf.length % STYLE_STRIDE ≠ 0 then (st, -2)
  else
    let st1 : EngineState :=
      { st with nodes := [], node_id_map := [], solver := st.solver.clearTree }
    let st2 := (List.range node_count).foldl (bulkCreateStep nodesBuf) st1
    let st3 := (List.range node_count).foldl
      (bulkChildrenStep nodesBuf childrenBuf) st2
    match lookupA 0 st3.nodes with
    | none => (st3, -3)
    | some root => (compute_results st3 root, 0)

/-- `compute_layout_from_buffers`, boundary included: null engine is
`-1`, null nodes / children pointers with nonzero declared length are
`-4` / `-5`. -/
def compute_layout_from_buffers (engine : Option EngineState)
    (nodesBuf : CBuf F32) (nodes_len : ℕ) (childrenBuf : CBuf ℕ)
    (children_len : ℕ) : Option EngineState × Int :=
  match engine with
  | none => (none, -1)
  | some st =>
    match readBuf nodesBuf nodes_len (-4) with
    | .error e => (some st, e)
    | .ok nodesL =>
      match readBuf childrenBuf children_len (-5) with
      | .error e => (some st, e)
      | .ok childrenL =>
        let r := computeLayoutFromBuffersSt st nodesL childrenL
        (some r.1, r.2)

/-- An all-zero style record, used as a concrete input by several
theorems below. -/
def zeros28 : List F32 := List.replicate 28 (F32.val 0)

/-- C4: `style_from_slice` is a pure total function on any slice of at
least the style stride; it depends only on the first `STYLE_STRIDE`
fields (hence identical records decode identically), width and height
are unset exactly when their field is NaN, and each enum-valued field
maps out-of-table integer codes to its fixed default variant (`Row`,
`FlexStart`, `Stretch`, `Relative`). -/
theorem c4_style_decode (s : List F32) (_hlen : STYLE_STRIDE ≤ s.length) :
    (∀ t : List F32,
        (∀ i, i < STYLE_STRIDE → s.getD i (F32.val 0) = t.getD i (F32.val 0)) →
        style_from_slice s = style_from_slice t)
    ∧ ((style_from_slice s).size_width = none ↔
        (s.getD StyleProp.Width (F32.val 0)).isNaN = true)
    ∧ ((style_from_slice s).size_height = none ↔
        (s.getD StyleProp.Height (F32.val 0)).isNaN = true)
    ∧ ((s.getD StyleProp.FlexDirection (F32.val 0)).asI32 ∉ ([1, 2, 3] : List Int) →
        (style_from_slice s).flex_direction = FlexDirection.Row)
    ∧ ((s.getD StyleProp.JustifyContent (F32.val 0)).asI32 ∉ ([1, 2, 3, 4, 5] : List Int) →
        (style_from_slice s).justify_content = JustifyContent.FlexStart)
    ∧ ((s.getD StyleProp.AlignItems (F32.val 0)).asI32 ∉ ([0, 1, 2, 3] : List Int) →
        (style_from_slice s).align_items = AlignItems.Stretch)
    ∧ ((s.getD StyleProp.PositionType (F32.val 0)).asI32 ≠ 1 →
        (style_from_slice s).position = Position.Relative) := by
  refine ⟨?_, ?_, ?_, ?_, ?_, ?_, ?_⟩
  · intro t h
    simp only [style_from_slice, StyleProp.Width, StyleProp.Height,
      StyleProp.FlexDirection, StyleProp.GapColumn, StyleProp.GapRow,
      StyleProp.JustifyContent, StyleProp.AlignItems, StyleProp.PositionType,
      StyleProp.FlexGrow, StyleProp.FlexShrink, StyleProp.MarginLeft,
      StyleProp.MarginRight, StyleProp.MarginTop, StyleProp.MarginBottom,
      StyleProp.PaddingLeft, StyleProp.PaddingRight, StyleProp.PaddingTop,
      StyleProp.PaddingBottom]
    rw [h 1 (by norm_num [STYLE_STRIDE]), h 2 (by norm_num [STYLE_STRIDE]),
      h 4 (by norm_num [STYLE_STRIDE]), h 5 (by norm_num [STYLE_STRIDE]),
      h 7 (by norm_num [STYLE_STRIDE]), h 8 (by norm_num [STYLE_STRIDE]),
      h 10 (by norm_num [STYLE_STRIDE]), h 11 (by norm_num [STYLE_STRIDE]),
      h 16 (by norm_num [STYLE_STRIDE]), h 17 (by norm_num [STYLE_STRIDE]),
      h 18 (by norm_num [STYLE_STRIDE]), h 19 (by norm_num [STYLE_STRIDE]),
      h 20 (by norm_num [STYLE_STRIDE]), h 21 (by norm_num [STYLE_STRIDE]),
      h 22 (by norm_num [STYLE_STRIDE]), h 23 (by norm_num [STYLE_STRIDE]),
      h 24 (by norm_num [STYLE_STRIDE]), h 25 (by norm_num [STYLE_STRIDE])]
  · simp only [style_from_slice]
    cases hna : (s.getD StyleProp.Width (F32.val 0)).isNaN <;> simp [hna]
  · simp only [style_from_slice]
    cases hna : (s.getD StyleProp.Height (F32.val 0)).isNaN <;> simp [hna]
  · intro h
    simp only [List.mem_cons, List.not_mem_nil, or_false, not_or] at h
    simp only [style_from_slice, decodeFlexDirection]
    rw [if_neg h.1, if_neg h.2.1, if_neg h.2.2]
  · intro h
    simp only [List.mem_cons, List.not_mem_nil, or_false, not_or] at h
    simp only [style_from_slice, decodeJustifyContent]
    rw [if_neg h.1, if_neg h.2.1, if_neg h.2.2.1, if_neg h.2.2.2.1, if_neg h.2.2.2.2]
  · intro h
    simp only [List.mem_cons, List.not_mem_nil, or_false, not_or] at h
    simp only [style_from_slice, decodeAlignItems]
    rw [if_neg h.1, if_neg h.2.1, if_neg h.2.2.1, if_neg h.2.2.2]
  · intro h
    simp only [style_from_slice, decodePosition]
    rw [if_neg h]

/-- Witness for C4 at the all-zero record: zero codes are in no enum
table except `align_items` (where 0 is `FlexStart`), zero width is not
NaN. -/
theorem c4_style_decode_witness :
    (style_from_slice zeros28).flex_direction = FlexDirection.Row
    ∧ (style_from_slice zeros28).position = Position.Relative
    ∧ ((style_from_slice zeros28).size_width = none ↔
        (zeros28.getD StyleProp.Width (F32.val 0)).isNaN = true) :=
  ⟨(c4_style_decode zeros28 (by decide)).2.2.2.1 (by decide),
   (c4_style_decode zeros28 (by decide)).2.2.2.2.2.2 (by decide),
   (c4_style_decode zeros28 (by decide)).2.1⟩

/-- The external ids found in a results buffer: every
`RESULT_STRIDE`-th field, i.e. the first field of each 5-field record
(a trailing fragment shorter than one record yields nothing). -/
def recordIds : List F32 → List F32
  | i :: _ :: _ :: _ :: _ :: rest => i :: recordIds rest
  | [] => []
  | [_] => []
  | [_, _] => []
  | [_, _, _] => []
  | [_, _, _, _] => []

theorem recordIds_cons5 (i a b c d : F32) (rest : List F32) :
    recordIds (i :: a :: b :: c :: d :: rest) = i :: recordIds rest := by
  rw [recordIds.eq_def]

/-- The two registry maps are exact inverses of each other. -/
def Inv (f r : List (ℕ × ℕ)) : Prop :=
  ∀ k h, lookupA k f = some h ↔ lookupA h r = some k

/-- An engine carrying exactly one live node, at external id 0, built
by one `CreateLeaf(0, 0)` call (the "id 0 pre-existing as root"
starting point of the spec's scenario). -/
def c5Start : EngineState := (applyOpsAndComputeSt initState [1, 0, 0] zeros28 []).1

/-- First C5 call: `CreateLeaf(1, 0)`, `CreateLeaf(2, 0)`,
`SetChildren(0, [1, 2])`. -/
def c5Run1 : EngineState × Int :=
  applyOpsAndComputeSt c5Start [1, 1, 0, 1, 2, 0, 3, 0, 0, 2] zeros28 [1, 2]

/-- Second C5 call: `RemoveNode(2)`. -/
def c5Run2 : EngineState × Int := applyOpsAndComputeSt c5Run1.1 [4, 2] zeros28 []

/-- C5: from an engine with live root id 0, the call applying
`CreateLeaf(1)`, `CreateLeaf(2)`, `SetChildren(0, [1, 2])` succeeds with
result-id set exactly 0, 1, 2; the subsequent call applying
`RemoveNode(2)` succeeds with result-id set exactly 0, 1. -/
theorem c5_scenario :
    c5Run1.2 = 0
    ∧ (recordIds c5Run1.1.results_buffer).toFinset =
        ({F32.ofId 0, F32.ofId 1, F32.ofId 2} : Finset F32)
    ∧ c5Run2.2 = 0
    ∧ (recordIds c5Run2.1.results_buffer).toFinset =
        ({F32.ofId 0, F32.ofId 1} : Finset F32) := by
  decide

/-- The engine state after `CreateLeaf(5, 0)` twice: the second create
re-registers external id 5 while the first handle's reverse-map entry
survives. -/
def c1DupState : EngineState := (runOps zeros28 [] initState [1, 5, 0, 1, 5, 0]).1

/-- Counterexample to C1 as stated: after a `CreateLeaf` whose external
id 5 is already registered, the two registry maps are not inverses (the
reverse map still sends the orphaned first handle to 5). -/
theorem c1_counterexample : ¬ Inv c1DupState.nodes c1DupState.node_id_map := by
  intro h
  have h2 := (h 5 0).mpr (by decide)
  exact absurd h2 (by decide)

/-- A successful call that re-creates external id 0: `CreateLeaf(0, 0)`
twice, then compute. -/
def c3DupRun : EngineState × Int :=
  applyOpsAndComputeSt initState [1, 0, 0, 1, 0, 0] zeros28 []

/-- Counterexample to C3 as stated: after the successful duplicate
`CreateLeaf(0)` call, the results buffer holds two records (the
orphaned first handle is still enumerated by the reverse map) while
only one external id is registered, so its length is not 5 times the
live-node count. -/
theorem c3_counterexample :
    c3DupRun.2 = 0
    ∧ c3DupRun.1.results_buffer.length ≠ RESULT_STRIDE * c3DupRun.1.nodes.length := by
  decide

/-- The ordered child handles the solver records for handle `h`. -/
def childrenOfHandle (st : EngineState) (h : ℕ) : List ℕ :=
  ((lookupA h st.solver.tree).map SNode.children).getD []

/-- An engine with one live node at external id 0, built by the
interpreter. -/
def c9IncStart : EngineState := (runOps zeros28 [] initState [1, 0, 0]).1

/-- A bulk-path node record for external id 0 declaring two children at
offset 0 of the children buffer. -/
def c9Node0Style : List F32 := List.replicate 26 (F32.val 0) ++ [F32.val 2, F32.val 0]

/-- Bulk-path node buffer: record 0 (two children at offset 0) and an
all-default record 1. -/
def c9NodesBuf : List F32 := c9Node0Style ++ zeros28

/-- The bulk-rebuild call on two nodes whose children list `[1, 7]`
references the unregistered external id 7. -/
def c9Bulk : EngineState × Int := computeLayoutFromBuffersSt initState c9NodesBuf [1, 7]

/-- C9: the two protocol variants disagree on the unknown-child policy
of `SetChildren`.  The incremental interpreter, given a children list
`[7]` with id 7 unregistered, fails the whole operation with `-18` and
assigns no children; the bulk-rebuild path, given children `[1, 7]`
with 7 unregistered, succeeds, silently drops 7 and assigns the
remaining resolved child. -/
theorem c9_policy_divergence :
    lookupA 7 c9IncStart.nodes = none
    ∧ runOps zeros28 [7] c9IncStart [3, 0, 0, 1] = (c9IncStart, some (-18))
    ∧ childrenOfHandle c9IncStart 0 = []
    ∧ lookupA 7 c9Bulk.1.nodes = none
    ∧ c9Bulk.2 = 0
    ∧ lookupA 1 c9Bulk.1.nodes = some 1
    ∧ childrenOfHandle c9Bulk.1 0 = [1] := by
  decide

/-- C10: for each of the three buffers of `apply_ops_and_compute`, a
null pointer with declared length 0 is not an error: the call behaves
exactly as with a valid empty buffer.  Only a null pointer with a
nonzero declared length yields that buffer's own error code
(`-6` ops, `-7` styles, `-8` children), leaving the engine untouched. -/
theorem c10_null_with_zero_len (st : EngineState) (sb : CBuf F32) (sl : ℕ)
    (cb : CBuf ℕ) (cl : ℕ) (ob : CBuf ℕ) (ol : ℕ)
    (opsL : List ℕ) (stylesL : List F32) :
    (apply_ops_and_compute (some st) .nullPtr 0 sb sl cb cl =
      apply_ops_and_compute (some st) (.valid []) 0 sb sl cb cl)
    ∧ (apply_ops_and_compute (some st) ob ol .nullPtr 0 cb cl =
      apply_ops_and_compute (some st) ob ol (.valid []) 0 cb cl)
    ∧ (apply_ops_and_compute (some st) ob ol sb sl .nullPtr 0 =
      apply_ops_and_compute (some st) ob ol sb sl (.valid []) 0)
    ∧ (∀ n, n ≠ 0 →
        apply_ops_and_compute (some st) .nullPtr n sb sl cb cl = (some st, -6))
    ∧ (∀ n, n ≠ 0 →
        apply_ops_and_compute (some st) (.valid opsL) ol .nullPtr n cb cl = (some st, -7))
    ∧ (∀ n, n ≠ 0 →
        apply_ops_and_compute (some st) (.valid opsL) ol (.valid stylesL) sl .nullPtr n =
          (some st, -8)) := by
  refine ⟨?_, ?_, ?_, ?_, ?_, ?_⟩
  · simp [apply_ops_and_compute, readBuf]
  · simp [apply_ops_and_compute, readBuf]
  · simp [apply_ops_and_compute, readBuf]
  · intro n hn
    simp [apply_ops_and_compute, readBuf, hn]
  · intro n hn
    by_cases hol : ol = 0 <;> simp [apply_ops_and_compute, readBuf, hol, hn]
  · intro n hn
    by_cases hol : ol = 0 <;> by_cases hsl : sl = 0 <;>
      simp [apply_ops_and_compute, readBuf, hol, hsl, hn]

/-- Witness for C10: the null ops pointer with length 1 errors with
`-6`; the null ops pointer with length 0 behaves as the empty stream. -/
theorem c10_null_with_zero_len_witness :
    apply_ops_and_compute (some initState) .nullPtr 1 (.valid []) 0 (.valid []) 0 =
      (some initState, -6)
    ∧ apply_ops_and_compute (some initState) .nullPtr 0 (.valid []) 0 (.valid []) 0 =
      apply_ops_and_compute (some initState) (.valid []) 0 (.valid []) 0 (.valid []) 0 :=
  ⟨(c10_null_with_zero_len initState (.valid []) 0 (.valid []) 0 (.valid []) 0
      [] []).2.2.2.1 1 (by decide),
   (c10_null_with_zero_len initState (.valid []) 0 (.valid []) 0 (.valid []) 0
      [] []).1⟩

theorem lookupA_eraseA_self {α : Type} (k : ℕ) (l : List (ℕ × α)) :
    lookupA k (eraseA k l) = none := by
  induction l with
  | nil => rfl
  | cons p t ih =>
    obtain ⟨a, b⟩ := p
    by_cases h : a = k
    · simpa [eraseA, h] using ih
    · have hk : k ≠ a := fun hh => h hh.symm
      simpa [eraseA, h, lookupA, hk] using ih

theorem lookupA_eraseA_ne {α : Type} {k k2 : ℕ} (h : k ≠ k2) (l : List (ℕ × α)) :
    lookupA k (eraseA k2 l) = lookupA k l := by
  induction l with
  | nil => rfl
  | cons p t ih =>
    obtain ⟨a, b⟩ := p
    by_cases hp : a = k2
    · have hk : k ≠ a := fun hh => h (hh.trans hp)
      simpa [eraseA, hp, lookupA, hk, h] using ih
    · by_cases hk : k = a <;> simp [eraseA, hp, lookupA, hk, ih]

theorem lookupA_insertA_self {α : Type} (k : ℕ) (v : α) (l : List (ℕ × α)) :
    lookupA k (insertA k v l) = some v := by
  simp [insertA, lookupA]

theorem lookupA_insertA_ne {α : Type} {k k2 : ℕ} (h : k ≠ k2) (v : α)
    (l : List (ℕ × α)) :
    lookupA k (insertA k2 v l) = lookupA k l := by
  simp only [insertA, lookupA, if_neg h]
  exact lookupA_eraseA_ne h l

theorem lookupA_mapVal {α β : Type} (g : ℕ × α → β) (k : ℕ) (l : List (ℕ × α)) :
    lookupA k (l.map (fun p => (p.1, g p))) = (lookupA k l).map (fun v => g (k, v)) := by
  induction l with
  | nil => rfl
  | cons p t ih =>
    cases p with
    | mk a b =>
      by_cases h : k = a
      · subst h; simp [lookupA]
      · simp [lookupA, h, ih]

/-- The handles registered in the reverse map are all strictly below the
solver's allocation counter, so a freshly allocated handle is never
already registered. -/
def HandlesBelow (st : EngineState) : Prop :=
  ∀ h k, lookupA h st.node_id_map = some k → h < st.solver.nextId

/-- The registry invariant: the two maps are exact inverses and every
registered handle is below the allocator. -/
def GoodRegistry (st : EngineState) : Prop :=
  Inv st.nodes st.node_id_map ∧ HandlesBelow st

theorem goodRegistry_initState : GoodRegistry initState := by
  constructor
  · intro k h
    simp [initState, lookupA]
  · intro h k hh
    simp [initState, lookupA] at hh

theorem doCreate_nodes (styles : List F32) (st : EngineState) (id off : ℕ) :
    (doCreate styles st id off).nodes = insertA id st.solver.nextId st.nodes := rfl

theorem doCreate_node_id_map (styles : List F32) (st : EngineState) (id off : ℕ) :
    (doCreate styles st id off).node_id_map =
      insertA st.solver.nextId id st.node_id_map := rfl

theorem doCreate_nextId (styles : List F32) (st : EngineState) (id off : ℕ) :
    (doCreate styles st id off).solver.nextId = st.solver.nextId + 1 := rfl

theorem goodRegistry_doCreate (styles : List F32) (st : EngineState) (id off : ℕ)
    (hg : GoodRegistry st) (hfresh : lookupA id st.nodes = none) :
    GoodRegistry (doCreate styles st id off) := by
  obtain ⟨hinv, hbnd⟩ := hg
  constructor
  · intro k v
    rw [doCreate_nodes, doCreate_node_id_map]
    by_cases hk : k = id
    · subst hk
      rw [lookupA_insertA_self]
      by_cases hv : v = st.solver.nextId
      · subst hv
        rw [lookupA_insertA_self]
        simp
      · rw [lookupA_insertA_ne hv]
        constructor
        · intro hh
          exact absurd (Option.some.inj hh).symm hv
        · intro hh
          exact absurd ((hinv _ _).mpr hh) (by simp [hfresh])
    · rw [lookupA_insertA_ne hk]
      by_cases hv : v = st.solver.nextId
      · subst hv
        rw [lookupA_insertA_self]
        constructor
        · intro hh
          exact absurd (hbnd _ _ ((hinv _ _).mp hh)) (Nat.lt_irrefl _)
        · intro hh
          exact absurd (Option.some.inj hh).symm hk
      · rw [lookupA_insertA_ne hv]
        exact hinv k v
  · intro h2 k2 hh
    rw [doCreate_node_id_map] at hh
    rw [doCreate_nextId]
    by_cases hv : h2 = st.solver.nextId
    · rw [hv]
      exact Nat.lt_succ_self _
    · rw [lookupA_insertA_ne hv] at hh
      exact Nat.lt_succ_of_lt (hbnd h2 k2 hh)

theorem goodRegistry_doUpdate (styles : List F32) (st : EngineState) (h off : ℕ)
    (hg : GoodRegistry st) : GoodRegistry (doUpdate styles st h off) :=
  hg

theorem goodRegistry_doSetChildren (st : EngineState) (h : ℕ) (hs : List ℕ)
    (hg : GoodRegistry st) : GoodRegistry (doSetChildren st h hs) :=
  hg

theorem goodRegistry_doRemove (st : EngineState) (id : ℕ)
    (hg : GoodRegistry st) : GoodRegistry (doRemove st id) := by
  obtain ⟨hinv, hbnd⟩ := hg
  unfold doRemove
  cases hl : lookupA id st.nodes with
  | none => exact ⟨hinv, hbnd⟩
  | some h =>
    have hrev : lookupA h st.node_id_map = some id := (hinv id h).mp hl
    constructor
    · intro k v
      by_cases hk : k = id
      · subst hk
        rw [lookupA_eraseA_self]
        by_cases hv : v = h
        · subst hv
          rw [lookupA_eraseA_self]
          simp
        · rw [lookupA_eraseA_ne hv]
          constructor
          · intro hh
            simp at hh
          · intro hh
            have := (hinv k v).mpr hh
            rw [hl] at this
            exact absurd (Option.some.inj this) (fun hx => hv hx.symm)
      · rw [lookupA_eraseA_ne hk]
        by_cases hv : v = h
        · subst hv
          rw [lookupA_eraseA_self]
          constructor
          · intro hh
            have := (hinv k v).mp hh
            rw [hrev] at this
            exact absurd (Option.some.inj this).symm hk
          · intro hh
            simp at hh
        · rw [lookupA_eraseA_ne hv]
          exact hinv k v
    · intro h2 k2 hh
      by_cases hv : h2 = h
      · subst hv
        rw [lookupA_eraseA_self] at hh
        simp at hh
      · rw [lookupA_eraseA_ne hv] at hh
        exact hbnd h2 k2 hh

theorem runOps_nil (styles : List F32) (children : List ℕ) (st : EngineState) :
    runOps styles children st [] = (st, none) := rfl

theorem runOps_create (styles : List F32) (children : List ℕ) (st : EngineState)
    (id off : ℕ) (rest : List ℕ) :
    runOps styles children st (1 :: id :: off :: rest) =
      if off + STYLE_STRIDE > styles.length then (st, some (-11))
      else runOps styles children (doCreate styles st id off) rest := by
  cases rest with
  | nil => rw [runOps.eq_def]; norm_num
  | cons x t => rw [runOps.eq_def]; norm_num

theorem runOps_update (styles : List F32) (children : List ℕ) (st : EngineState)
    (id off : ℕ) (rest : List ℕ) :
    runOps styles children st (2 :: id :: off :: rest) =
      if off + STYLE_STRIDE > styles.length then (st, some (-13))
      else
        (lookupA id st.nodes).elim (st, some (-14))
          (fun h => runOps styles children (doUpdate styles st h off) rest) := by
  cases rest with
  | nil => rw [runOps.eq_def]; norm_num
  | cons x t => rw [runOps.eq_def]; norm_num

theorem runOps_setchildren (styles : List F32) (children : List ℕ)
    (st : EngineState) (id off cnt : ℕ) (rest : List ℕ) :
    runOps styles children st (3 :: id :: off :: cnt :: rest) =
      (lookupA id st.nodes).elim (st, some (-16)) (fun h =>
        if off + cnt > children.length then (st, some (-17))
        else
          (resolveAll st.nodes ((children.drop off).take cnt)).elim (st, some (-18))
            (fun hs => runOps styles children (doSetChildren st h hs) rest)) := by
  rw [runOps.eq_def]
  norm_num

theorem runOps_remove (styles : List F32) (children : List ℕ) (st : EngineState)
    (id : ℕ) (rest : List ℕ) :
    runOps styles children st (4 :: id :: rest) =
      runOps styles children (doRemove st id) rest := by
  cases rest with
  | nil => rw [runOps.eq_def]; norm_num
  | cons x t =>
    cases t with
    | nil => rw [runOps.eq_def]; norm_num
    | cons y u => rw [runOps.eq_def]; norm_num

theorem runOps_create_oob (styles : List F32) (children : List ℕ)
    (st : EngineState) (id off : ℕ) (rest : List ℕ)
    (hoob : off + STYLE_STRIDE > styles.length) :
    runOps styles children st (1 :: id :: off :: rest) = (st, some (-11)) := by
  rw [runOps_create, if_pos hoob]

theorem runOps_create_ok (styles : List F32) (children : List ℕ)
    (st : EngineState) (id off : ℕ) (rest : List ℕ)
    (hoob : ¬off + STYLE_STRIDE > styles.length) :
    runOps styles children st (1 :: id :: off :: rest) =
      runOps styles children (doCreate styles st id off) rest := by
  rw [runOps_create, if_neg hoob]

theorem runOps_update_oob (styles : List F32) (children : List ℕ)
    (st : EngineState) (id off : ℕ) (rest : List ℕ)
    (hoob : off + STYLE_STRIDE > styles.length) :
    runOps styles children st (2 :: id :: off :: rest) = (st, some (-13)) := by
  rw [runOps_update, if_pos hoob]

theorem runOps_update_unknown (styles : List F32) (children : List ℕ)
    (st : EngineState) (id off : ℕ) (rest : List ℕ)
    (hoob : ¬off + STYLE_STRIDE > styles.length)
    (hl : lookupA id st.nodes = none) :
    runOps styles children st (2 :: id :: off :: rest) = (st, some (-14)) := by
  rw [runOps_update, if_neg hoob, hl]
  rfl

theorem runOps_update_found (styles : List F32) (children : List ℕ)
    (st : EngineState) (id off h : ℕ) (rest : List ℕ)
    (hoob : ¬off + STYLE_STRIDE > styles.length)
    (hl : lookupA id st.nodes = some h) :
    runOps styles children st (2 :: id :: off :: rest) =
      runOps styles children (doUpdate styles st h off) rest := by
  rw [runOps_update, if_neg hoob, hl]
  rfl

theorem runOps_setchildren_unknown (styles : List F32) (children : List ℕ)
    (st : EngineState) (id off cnt : ℕ) (rest : List ℕ)
    (hl : lookupA id st.nodes = none) :
    runOps styles children st (3 :: id :: off :: cnt :: rest) = (st, some (-16)) := by
  rw [runOps_setchildren, hl]
  rfl

theorem runOps_setchildren_oob (styles : List F32) (children : List ℕ)
    (st : EngineState) (id off cnt h : ℕ) (rest : List ℕ)
    (hl : lookupA id st.nodes = some h)
    (hoob : off + cnt > children.length) :
    runOps styles children st (3 :: id :: off :: cnt :: rest) = (st, some (-17)) := by
  rw [runOps_setchildren, hl]
  dsimp only [Option.elim]
  rw [if_pos hoob]

theorem runOps_setchildren_badchild (styles : List F32) (children : List ℕ)
    (st : EngineState) (id off cnt h : ℕ) (rest : List ℕ)
    (hl : lookupA id st.nodes = some h)
    (hoob : ¬off + cnt > children.length)
    (hr : resolveAll st.nodes ((children.drop off).take cnt) = none) :
    runOps styles children st (3 :: id :: off :: cnt :: rest) = (st, some (-18)) := by
  rw [runOps_setchildren, hl]
  dsimp only [Option.elim]
  rw [if_neg hoob, hr]

theorem runOps_setchildren_ok (styles : List F32) (children : List ℕ)
    (st : EngineState) (id off cnt h : ℕ) (hs : List ℕ) (rest : List ℕ)
    (hl : lookupA id st.nodes = some h)
    (hoob : ¬off + cnt > children.length)
    (hr : resolveAll st.nodes ((children.drop off).take cnt) = some hs) :
    runOps styles children st (3 :: id :: off :: cnt :: rest) =
      runOps styles children (doSetChildren st h hs) rest := by
  rw [runOps_setchildren, hl]
  dsimp only [Option.elim]
  rw [if_neg hoob, hr]

theorem runOps_create_trunc (styles : List F32) (children : List ℕ)
    (st : EngineState) :
    runOps styles children st [1] = (st, some (-10))
    ∧ ∀ x, runOps styles children st [1, x] = (st, some (-10)) := by
  constructor
  · rw [runOps.eq_def]; norm_num
  · intro x; rw [runOps.eq_def]; norm_num

theorem runOps_update_trunc (styles : List F32) (children : List ℕ)
    (st : EngineState) :
    runOps styles children st [2] = (st, some (-12))
    ∧ ∀ x, runOps styles children st [2, x] = (st, some (-12)) := by
  constructor
  · rw [runOps.eq_def]; norm_num
  · intro x; rw [runOps.eq_def]; norm_num

theorem runOps_setchildren_trunc (styles : List F32) (children : List ℕ)
    (st : EngineState) :
    runOps styles children st [3] = (st, some (-15))
    ∧ (∀ x, runOps styles children st [3, x] = (st, some (-15)))
    ∧ ∀ x y, runOps styles children st [3, x, y] = (st, some (-15)) := by
  refine ⟨?_, ?_, ?_⟩
  · rw [runOps.eq_def]; norm_num
  · intro x; rw [runOps.eq_def]; norm_num
  · intro x y; rw [runOps.eq_def]; norm_num

theorem runOps_remove_trunc (styles : List F32) (children : List ℕ)
    (st : EngineState) :
    runOps styles children st [4] = (st, some (-19)) := by
  rw [runOps.eq_def]
  norm_num

theorem runOps_unknown_op (styles : List F32) (children : List ℕ)
    (st : EngineState) (op : ℕ) (rest : List ℕ)
    (h1 : op ≠ 1) (h2 : op ≠ 2) (h3 : op ≠ 3) (h4 : op ≠ 4) :
    runOps styles children st (op :: rest) = (st, some (-20)) := by
  rcases rest with _ | ⟨w1, _ | ⟨w2, _ | ⟨w3, t⟩⟩⟩ <;>
    (rw [runOps.eq_def]; simp only [if_neg h1, if_neg h2, if_neg h3, if_neg h4])

/-- The per-cause error codes of the interpreter loop: truncated
`CreateLeaf` / `UpdateStyle` / `SetChildren` / `RemoveNode` operands
(`-10`, `-12`, `-15`, `-19`), out-of-bounds style offset on create or
update (`-11`, `-13`), unknown update target (`-14`), unknown
`SetChildren` target (`-16`), out-of-bounds children range (`-17`),
unknown child reference (`-18`), unknown opcode (`-20`). -/
def interpErrorCodes : List Int :=
  [-10, -11, -12, -13, -14, -15, -16, -17, -18, -19, -20]

theorem doCreate_results (styles : List F32) (st : EngineState) (id off : ℕ) :
    (doCreate styles st id off).results_buffer = st.results_buffer := rfl

theorem doUpdate_results (styles : List F32) (st : EngineState) (h off : ℕ) :
    (doUpdate styles st h off).results_buffer = st.results_buffer := rfl

theorem doSetChildren_results (st : EngineState) (h : ℕ) (hs : List ℕ) :
    (doSetChildren st h hs).results_buffer = st.results_buffer := rfl

theorem doRemove_results (st : EngineState) (id : ℕ) :
    (doRemove st id).results_buffer = st.results_buffer := by
  unfold doRemove
  cases lookupA id st.nodes <;> rfl

/-- The interpreter loop never touches the results buffer (only the
final `compute_results` call of a successful `apply_ops_and_compute`
does). -/
theorem runOps_results_buffer (styles : List F32) (children : List ℕ)
    (st : EngineState) (ops : List ℕ) :
    (runOps styles children st ops).1.results_buffer = st.results_buffer := by
  induction st, ops using runOps.induct styles children with
  | case1 st => rfl
  | case2 st => rfl
  | case3 st h2 => rfl
  | case4 st h31 h32 => rfl
  | case5 st h41 h42 h43 => rfl
  | case6 st op h1 h2 h3 h4 =>
    rw [runOps_unknown_op styles children st op [] h1 h2 h3 h4]
  | case7 st w1 => rfl
  | case8 st w1 h2 => rfl
  | case9 st w1 h31 h32 => rfl
  | case10 st w1 h41 h42 h43 ih =>
    rw [runOps_remove styles children st w1 [], runOps_nil, doRemove_results]
  | case11 st op w1 h1 h2 h3 h4 =>
    rw [runOps_unknown_op styles children st op [w1] h1 h2 h3 h4]
  | case12 st w1 w2 hoob =>
    rw [runOps_create_oob styles children st w1 w2 [] hoob]
  | case13 st w1 w2 hoob ih =>
    rw [runOps_create_ok styles children st w1 w2 [] hoob, ih]
    rfl
  | case14 st w1 w2 hoob h2 =>
    rw [runOps_update_oob styles children st w1 w2 [] hoob]
  | case15 st w1 w2 hoob h2 ih =>
    rw [runOps_update styles children st w1 w2 [], if_neg hoob]
    cases hl : lookupA w1 st.nodes with
    | none => rfl
    | some h =>
      dsimp only [Option.elim]
      rw [ih h]
      rfl
  | case16 st w1 w2 h31 h32 => rfl
  | case17 st w1 w2 h41 h42 h43 ih =>
    rw [runOps_remove styles children st w1 [w2], ih, doRemove_results]
  | case18 st op w1 w2 h1 h2 h3 h4 =>
    rw [runOps_unknown_op styles children st op [w1, w2] h1 h2 h3 h4]
  | case19 st w1 w2 w3 rest hoob =>
    rw [runOps_create_oob styles children st w1 w2 (w3 :: rest) hoob]
  | case20 st w1 w2 w3 rest hoob ih =>
    rw [runOps_create_ok styles children st w1 w2 (w3 :: rest) hoob, ih]
    rfl
  | case21 st w1 w2 w3 rest hoob h2 =>
    rw [runOps_update_oob styles children st w1 w2 (w3 :: rest) hoob]
  | case22 st w1 w2 w3 rest hoob h2 ih =>
    rw [runOps_update styles children st w1 w2 (w3 :: rest), if_neg hoob]
    cases hl : lookupA w1 st.nodes with
    | none => rfl
    | some h =>
      dsimp only [Option.elim]
      rw [ih h]
      rfl
  | case23 st w1 w2 w3 rest h31 h32 ih =>
    rw [runOps_setchildren styles children st w1 w2 w3 rest]
    cases hl : lookupA w1 st.nodes with
    | none => rfl
    | some h =>
      dsimp only [Option.elim]
      by_cases hoob : w2 + w3 > children.length
      · rw [if_pos hoob]
      · rw [if_neg hoob]
        cases hr : resolveAll st.nodes ((children.drop w2).take w3) with
        | none => rfl
        | some hs =>
          dsimp only [Option.elim]
          rw [ih h hs]
          rfl
  | case24 st w1 w2 w3 rest h41 h42 h43 ih =>
    rw [runOps_remove styles children st w1 (w2 :: w3 :: rest), ih, doRemove_results]
  | case25 st op w1 w2 w3 rest h1 h2 h3 h4 =>
    rw [runOps_unknown_op styles children st op (w1 :: w2 :: w3 :: rest) h1 h2 h3 h4]

/-- Sequential composition: a stream that runs without error, followed
by further words, first applies all its instructions and then continues
with the remaining words from the state it reached. -/
theorem runOps_append (styles : List F32) (children : List ℕ)
    (st : EngineState) (a : List ℕ) :
    ∀ st1 b, runOps styles children st a = (st1, none) →
      runOps styles children st (a ++ b) = runOps styles children st1 b := by
  induction st, a using runOps.induct styles children with
  | case1 st =>
    intro st1 b h
    rw [runOps_nil] at h
    simp only [Prod.mk.injEq] at h
    obtain ⟨rfl, -⟩ := h
    rw [List.nil_append]
  | case2 st =>
    intro st1 b h
    rw [show runOps styles children st [1] = (st, some (-10)) from rfl] at h
    simp at h
  | case3 st h2 =>
    intro st1 b h
    rw [show runOps styles children st [2] = (st, some (-12)) from rfl] at h
    simp at h
  | case4 st h31 h32 =>
    intro st1 b h
    rw [show runOps styles children st [3] = (st, some (-15)) from rfl] at h
    simp at h
  | case5 st h41 h42 h43 =>
    intro st1 b h
    rw [show runOps styles children st [4] = (st, some (-19)) from rfl] at h
    simp at h
  | case6 st op h1 h2 h3 h4 =>
    intro st1 b h
    rw [runOps_unknown_op styles children st op [] h1 h2 h3 h4] at h
    simp at h
  | case7 st w1 =>
    intro st1 b h
    rw [show runOps styles children st [1, w1] = (st, some (-10)) from rfl] at h
    simp at h
  | case8 st w1 h2 =>
    intro st1 b h
    rw [show runOps styles children st [2, w1] = (st, some (-12)) from rfl] at h
    simp at h
  | case9 st w1 h31 h32 =>
    intro st1 b h
    rw [show runOps styles children st [3, w1] = (st, some (-15)) from rfl] at h
    simp at h
  | case10 st w1 h41 h42 h43 ih =>
    intro st1 b h
    rw [runOps_remove styles children st w1 []] at h
    have h2 := ih st1 b h
    rw [List.nil_append] at h2
    rw [show ([4, w1] : List ℕ) ++ b = 4 :: w1 :: b from rfl,
      runOps_remove styles children st w1 b]
    exact h2
  | case11 st op w1 h1 h2 h3 h4 =>
    intro st1 b h
    rw [runOps_unknown_op styles children st op [w1] h1 h2 h3 h4] at h
    simp at h
  | case12 st w1 w2 hoob =>
    intro st1 b h
    rw [runOps_create_oob styles children st w1 w2 [] hoob] at h
    simp at h
  | case13 st w1 w2 hoob ih =>
    intro st1 b h
    rw [runOps_create_ok styles children st w1 w2 [] hoob] at h
    have h2 := ih st1 b h
    rw [List.nil_append] at h2
    rw [show ([1, w1, w2] : List ℕ) ++ b = 1 :: w1 :: w2 :: b from rfl,
      runOps_create_ok styles children st w1 w2 b hoob]
    exact h2
  | case14 st w1 w2 hoob h2 =>
    intro st1 b h
    rw [runOps_update_oob styles children st w1 w2 [] hoob] at h
    simp at h
  | case15 st w1 w2 hoob h2 ih =>
    intro st1 b h
    cases hl : lookupA w1 st.nodes with
    | none =>
      rw [runOps_update_unknown styles children st w1 w2 [] hoob hl] at h
      simp at h
    | some hv =>
      rw [runOps_update_found styles children st w1 w2 hv [] hoob hl] at h
      have h3 := ih hv st1 b h
      rw [List.nil_append] at h3
      rw [show ([2, w1, w2] : List ℕ) ++ b = 2 :: w1 :: w2 :: b from rfl,
        runOps_update_found styles children st w1 w2 hv b hoob hl]
      exact h3
  | case16 st w1 w2 h31 h32 =>
    intro st1 b h
    rw [show runOps styles children st [3, w1, w2] = (st, some (-15)) from rfl] at h
    simp at h
  | case17 st w1 w2 h41 h42 h43 ih =>
    intro st1 b h
    rw [runOps_remove styles children st w1 [w2]] at h
    have h2 := ih st1 b h
    rw [show ([4, w1, w2] : List ℕ) ++ b = 4 :: w1 :: w2 :: b from rfl,
      runOps_remove styles children st w1 (w2 :: b)]
    exact h2
  | case18 st op w1 w2 h1 h2 h3 h4 =>
    intro st1 b h
    rw [runOps_unknown_op styles children st op [w1, w2] h1 h2 h3 h4] at h
    simp at h
  | case19 st w1 w2 w3 rest hoob =>
    intro st1 b h
    rw [runOps_create_oob styles children st w1 w2 (w3 :: rest) hoob] at h
    simp at h
  | case20 st w1 w2 w3 rest hoob ih =>
    intro st1 b h
    rw [runOps_create_ok styles children st w1 w2 (w3 :: rest) hoob] at h
    have h2 := ih st1 b h
    rw [show (1 :: w1 :: w2 :: w3 :: rest) ++ b = 1 :: w1 :: w2 :: (w3 :: rest ++ b)
        from rfl,
      runOps_create_ok styles children st w1 w2 (w3 :: rest ++ b) hoob]
    exact h2
  | case21 st w1 w2 w3 rest hoob h2 =>
    intro st1 b h
    rw [runOps_update_oob styles children st w1 w2 (w3 :: rest) hoob] at h
    simp at h
  | case22 st w1 w2 w3 rest hoob h2 ih =>
    intro st1 b h
    cases hl : lookupA w1 st.nodes with
    | none =>
      rw [runOps_update_unknown styles children st w1 w2 (w3 :: rest) hoob hl] at h
      simp at h
    | some hv =>
      rw [runOps_update_found styles children st w1 w2 hv (w3 :: rest) hoob hl] at h
      have h3 := ih hv st1 b h
      rw [show (2 :: w1 :: w2 :: w3 :: rest) ++ b = 2 :: w1 :: w2 :: (w3 :: rest ++ b)
          from rfl,
        runOps_update_found styles children st w1 w2 hv (w3 :: rest ++ b) hoob hl]
      exact h3
  | case23 st w1 w2 w3 rest h31 h32 ih =>
    intro st1 b h
    cases hl : lookupA w1 st.nodes with
    | none =>
      rw [runOps_setchildren_unknown styles children st w1 w2 w3 rest hl] at h
      simp at h
    | some hv =>
      by_cases hoob : w2 + w3 > children.length
      · rw [runOps_setchildren_oob styles children st w1 w2 w3 hv rest hl hoob] at h
        simp at h
      · cases hr : resolveAll st.nodes ((children.drop w2).take w3) with
        | none =>
          rw [runOps_setchildren_badchild styles children st w1 w2 w3 hv rest
            hl hoob hr] at h
          simp at h
        | some hs =>
          rw [runOps_setchildren_ok styles children st w1 w2 w3 hv hs rest
            hl hoob hr] at h
          have h3 := ih hv hs st1 b h
          rw [show (3 :: w1 :: w2 :: w3 :: rest) ++ b = 3 :: w1 :: w2 :: w3 :: (rest ++ b)
              from rfl,
            runOps_setchildren_ok styles children st w1 w2 w3 hv hs (rest ++ b)
              hl hoob hr]
          exact h3
  | case24 st w1 w2 w3 rest h41 h42 h43 ih =>
    intro st1 b h
    rw [runOps_remove styles children st w1 (w2 :: w3 :: rest)] at h
    have h2 := ih st1 b h
    rw [show (4 :: w1 :: w2 :: w3 :: rest) ++ b = 4 :: w1 :: (w2 :: w3 :: rest ++ b)
        from rfl,
      runOps_remove styles children st w1 (w2 :: w3 :: rest ++ b)]
    exact h2
  | case25 st op w1 w2 w3 rest h1 h2 h3 h4 =>
    intro st1 b h
    rw [runOps_unknown_op styles children st op (w1 :: w2 :: w3 :: rest) h1 h2 h3 h4] at h
    simp at h

/-- Error decomposition: when the interpreter halts with an error, the
code is one of the per-cause codes, the stream splits into a prefix of
successfully applied instructions (whose mutations produced the
returned state) and a suffix beginning with the failing instruction,
and that failing instruction fails identically from the reached state
without mutating it. -/
theorem runOps_error_split (styles : List F32) (children : List ℕ)
    (st : EngineState) (ops : List ℕ) :
    ∀ st1 e, runOps styles children st ops = (st1, some e) →
      e ∈ interpErrorCodes ∧
      ∃ pre suf, ops = pre ++ suf
        ∧ runOps styles children st pre = (st1, none)
        ∧ runOps styles children st1 suf = (st1, some e) := by
  induction st, ops using runOps.induct styles children with
  | case1 st =>
    intro st1 e h
    rw [runOps_nil] at h
    simp at h
  | case2 st =>
    intro st1 e h
    rw [show runOps styles children st [1] = (st, some (-10)) from rfl] at h
    simp only [Prod.mk.injEq, Option.some.injEq] at h
    obtain ⟨rfl, rfl⟩ := h
    exact ⟨by decide, [], [1], rfl, runOps_nil styles children st,
      show runOps styles children st [1] = (st, some (-10)) from rfl⟩
  | case3 st h2 =>
    intro st1 e h
    rw [show runOps styles children st [2] = (st, some (-12)) from rfl] at h
    simp only [Prod.mk.injEq, Option.some.injEq] at h
    obtain ⟨rfl, rfl⟩ := h
    exact ⟨by decide, [], [2], rfl, runOps_nil styles children st,
      show runOps styles children st [2] = (st, some (-12)) from rfl⟩
  | case4 st h31 h32 =>
    intro st1 e h
    rw [show runOps styles children st [3] = (st, some (-15)) from rfl] at h
    simp only [Prod.mk.injEq, Option.some.injEq] at h
    obtain ⟨rfl, rfl⟩ := h
    exact ⟨by decide, [], [3], rfl, runOps_nil styles children st,
      show runOps styles children st [3] = (st, some (-15)) from rfl⟩
  | case5 st h41 h42 h43 =>
    intro st1 e h
    rw [show runOps styles children st [4] = (st, some (-19)) from rfl] at h
    simp only [Prod.mk.injEq, Option.some.injEq] at h
    obtain ⟨rfl, rfl⟩ := h
    exact ⟨by decide, [], [4], rfl, runOps_nil styles children st,
      show runOps styles children st [4] = (st, some (-19)) from rfl⟩
  | case6 st op h1 h2 h3 h4 =>
    intro st1 e h
    rw [runOps_unknown_op styles children st op [] h1 h2 h3 h4] at h
    simp only [Prod.mk.injEq, Option.some.injEq] at h
    obtain ⟨rfl, rfl⟩ := h
    exact ⟨by decide, [], [op], rfl, runOps_nil styles children st,
      runOps_unknown_op styles children st op [] h1 h2 h3 h4⟩
  | case7 st w1 =>
    intro st1 e h
    rw [show runOps styles children st [1, w1] = (st, some (-10)) from rfl] at h
    simp only [Prod.mk.injEq, Option.some.injEq] at h
    obtain ⟨rfl, rfl⟩ := h
    exact ⟨by decide, [], [1, w1], rfl, runOps_nil styles children st,
      show runOps styles children st [1, w1] = (st, some (-10)) from rfl⟩
  | case8 st w1 h2 =>
    intro st1 e h
    rw [show runOps styles children st [2, w1] = (st, some (-12)) from rfl] at h
    simp only [Prod.mk.injEq, Option.some.injEq] at h
    obtain ⟨rfl, rfl⟩ := h
    exact ⟨by decide, [], [2, w1], rfl, runOps_nil styles children st,
      show runOps styles children st [2, w1] = (st, some (-12)) from rfl⟩
  | case9 st w1 h31 h32 =>
    intro st1 e h
    rw [show runOps styles children st [3, w1] = (st, some (-15)) from rfl] at h
    simp only [Prod.mk.injEq, Option.some.injEq] at h
    obtain ⟨rfl, rfl⟩ := h
    exact ⟨by decide, [], [3, w1], rfl, runOps_nil styles children st,
      show runOps styles children st [3, w1] = (st, some (-15)) from rfl⟩
  | case10 st w1 h41 h42 h43 ih =>
    intro st1 e h
    rw [runOps_remove styles children st w1 []] at h
    obtain ⟨hmem, pre, suf, hsplit, hpre, hsuf⟩ := ih st1 e h
    refine ⟨hmem, 4 :: w1 :: pre, suf, by simpa using hsplit, ?_, hsuf⟩
    rw [runOps_remove styles children st w1 pre]
    exact hpre
  | case11 st op w1 h1 h2 h3 h4 =>
    intro st1 e h
    rw [runOps_unknown_op styles children st op [w1] h1 h2 h3 h4] at h
    simp only [Prod.mk.injEq, Option.some.injEq] at h
    obtain ⟨rfl, rfl⟩ := h
    exact ⟨by decide, [], [op, w1], rfl, runOps_nil styles children st,
      runOps_unknown_op styles children st op [w1] h1 h2 h3 h4⟩
  | case12 st w1 w2 hoob =>
    intro st1 e h
    rw [runOps_create_oob styles children st w1 w2 [] hoob] at h
    simp only [Prod.mk.injEq, Option.some.injEq] at h
    obtain ⟨rfl, rfl⟩ := h
    exact ⟨by decide, [], [1, w1, w2], rfl, runOps_nil styles children st,
      runOps_create_oob styles children st w1 w2 [] hoob⟩
  | case13 st w1 w2 hoob ih =>
    intro st1 e h
    rw [runOps_create_ok styles children st w1 w2 [] hoob] at h
    obtain ⟨hmem, pre, suf, hsplit, hpre, hsuf⟩ := ih st1 e h
    refine ⟨hmem, 1 :: w1 :: w2 :: pre, suf, by simpa using hsplit, ?_, hsuf⟩
    rw [runOps_create_ok styles children st w1 w2 pre hoob]
    exact hpre
  | case14 st w1 w2 hoob h2 =>
    intro st1 e h
    rw [runOps_update_oob styles children st w1 w2 [] hoob] at h
    simp only [Prod.mk.injEq, Option.some.injEq] at h
    obtain ⟨rfl, rfl⟩ := h
    exact ⟨by decide, [], [2, w1, w2], rfl, runOps_nil styles children st,
      runOps_update_oob styles children st w1 w2 [] hoob⟩
  | case15 st w1 w2 hoob h2 ih =>
    intro st1 e h
    cases hl : lookupA w1 st.nodes with
    | none =>
      rw [runOps_update_unknown styles children st w1 w2 [] hoob hl] at h
      simp only [Prod.mk.injEq, Option.some.injEq] at h
      obtain ⟨rfl, rfl⟩ := h
      exact ⟨by decide, [], [2, w1, w2], rfl, runOps_nil styles children st,
        runOps_update_unknown styles children st w1 w2 [] hoob hl⟩
    | some hv =>
      rw [runOps_update_found styles children st w1 w2 hv [] hoob hl] at h
      obtain ⟨hmem, pre, suf, hsplit, hpre, hsuf⟩ := ih hv st1 e h
      refine ⟨hmem, 2 :: w1 :: w2 :: pre, suf, by simpa using hsplit, ?_, hsuf⟩
      rw [runOps_update_found styles children st w1 w2 hv pre hoob hl]
      exact hpre
  | case16 st w1 w2 h31 h32 =>
    intro st1 e h
    rw [show runOps styles children st [3, w1, w2] = (st, some (-15)) from rfl] at h
    simp only [Prod.mk.injEq, Option.some.injEq] at h
    obtain ⟨rfl, rfl⟩ := h
    exact ⟨by decide, [], [3, w1, w2], rfl, runOps_nil styles children st,
      show runOps styles children st [3, w1, w2] = (st, some (-15)) from rfl⟩
  | case17 st w1 w2 h41 h42 h43 ih =>
    intro st1 e h
    rw [runOps_remove styles children st w1 [w2]] at h
    obtain ⟨hmem, pre, suf, hsplit, hpre, hsuf⟩ := ih st1 e h
    refine ⟨hmem, 4 :: w1 :: pre, suf, by simpa using hsplit, ?_, hsuf⟩
    rw [runOps_remove styles children st w1 pre]
    exact hpre
  | case18 st op w1 w2 h1 h2 h3 h4 =>
    intro st1 e h
    rw [runOps_unknown_op styles children st op [w1, w2] h1 h2 h3 h4] at h
    simp only [Prod.mk.injEq, Option.some.injEq] at h
    obtain ⟨rfl, rfl⟩ := h
    exact ⟨by decide, [], [op, w1, w2], rfl, runOps_nil styles children st,
      runOps_unknown_op styles children st op [w1, w2] h1 h2 h3 h4⟩
  | case19 st w1 w2 w3 rest hoob =>
    intro st1 e h
    rw [runOps_create_oob styles children st w1 w2 (w3 :: rest) hoob] at h
    simp only [Prod.mk.injEq, Option.some.injEq] at h
    obtain ⟨rfl, rfl⟩ := h
    exact ⟨by decide, [], 1 :: w1 :: w2 :: w3 :: rest, rfl,
      runOps_nil styles children st,
      runOps_create_oob styles children st w1 w2 (w3 :: rest) hoob⟩
  | case20 st w1 w2 w3 rest hoob ih =>
    intro st1 e h
    rw [runOps_create_ok styles children st w1 w2 (w3 :: rest) hoob] at h
    obtain ⟨hmem, pre, suf, hsplit, hpre, hsuf⟩ := ih st1 e h
    refine ⟨hmem, 1 :: w1 :: w2 :: pre, suf, by simpa using hsplit, ?_, hsuf⟩
    rw [runOps_create_ok styles children st w1 w2 pre hoob]
    exact hpre
  | case21 st w1 w2 w3 rest hoob h2 =>
    intro st1 e h
    rw [runOps_update_oob styles children st w1 w2 (w3 :: rest) hoob] at h
    simp only [Prod.mk.injEq, Option.some.injEq] at h
    obtain ⟨rfl, rfl⟩ := h
    exact ⟨by decide, [], 2 :: w1 :: w2 :: w3 :: rest, rfl,
      runOps_nil styles children st,
      runOps_update_oob styles children st w1 w2 (w3 :: rest) hoob⟩
  | case22 st w1 w2 w3 rest hoob h2 ih =>
    intro st1 e h
    cases hl : lookupA w1 st.nodes with
    | none =>
      rw [runOps_update_unknown styles children st w1 w2 (w3 :: rest) hoob hl] at h
      simp only [Prod.mk.injEq, Option.some.injEq] at h
      obtain ⟨rfl, rfl⟩ := h
      exact ⟨by decide, [], 2 :: w1 :: w2 :: w3 :: rest, rfl,
        runOps_nil styles children st,
        runOps_update_unknown styles children st w1 w2 (w3 :: rest) hoob hl⟩
    | some hv =>
      rw [runOps_update_found styles children st w1 w2 hv (w3 :: rest) hoob hl] at h
      obtain ⟨hmem, pre, suf, hsplit, hpre, hsuf⟩ := ih hv st1 e h
      refine ⟨hmem, 2 :: w1 :: w2 :: pre, suf, by simpa using hsplit, ?_, hsuf⟩
      rw [runOps_update_found styles children st w1 w2 hv pre hoob hl]
      exact hpre
  | case23 st w1 w2 w3 rest h31 h32 ih =>
    intro st1 e h
    cases hl : lookupA w1 st.nodes with
    | none =>
      rw [runOps_setchildren_unknown styles children st w1 w2 w3 rest hl] at h
      simp only [Prod.mk.injEq, Option.some.injEq] at h
      obtain ⟨rfl, rfl⟩ := h
      exact ⟨by decide, [], 3 :: w1 :: w2 :: w3 :: rest, rfl,
        runOps_nil styles children st,
        runOps_setchildren_unknown styles children st w1 w2 w3 rest hl⟩
    | some hv =>
      by_cases hoob : w2 + w3 > children.length
      · rw [runOps_setchildren_oob styles children st w1 w2 w3 hv rest hl hoob] at h
        simp only [Prod.mk.injEq, Option.some.injEq] at h
        obtain ⟨rfl, rfl⟩ := h
        exact ⟨by decide, [], 3 :: w1 :: w2 :: w3 :: rest, rfl,
          runOps_nil styles children st,
          runOps_setchildren_oob styles children st w1 w2 w3 hv rest hl hoob⟩
      · cases hr : resolveAll st.nodes ((children.drop w2).take w3) with
        | none =>
          rw [runOps_setchildren_badchild styles children st w1 w2 w3 hv rest
            hl hoob hr] at h
          simp only [Prod.mk.injEq, Option.some.injEq] at h
          obtain ⟨rfl, rfl⟩ := h
          exact ⟨by decide, [], 3 :: w1 :: w2 :: w3 :: rest, rfl,
            runOps_nil styles children st,
            runOps_setchildren_badchild styles children st w1 w2 w3 hv rest
              hl hoob hr⟩
        | some hs =>
          rw [runOps_setchildren_ok styles children st w1 w2 w3 hv hs rest
            hl hoob hr] at h
          obtain ⟨hmem, pre, suf, hsplit, hpre, hsuf⟩ := ih hv hs st1 e h
          refine ⟨hmem, 3 :: w1 :: w2 :: w3 :: pre, suf, by simpa using hsplit,
            ?_, hsuf⟩
          rw [runOps_setchildren_ok styles children st w1 w2 w3 hv hs pre
            hl hoob hr]
          exact hpre
  | case24 st w1 w2 w3 rest h41 h42 h43 ih =>
    intro st1 e h
    rw [runOps_remove styles children st w1 (w2 :: w3 :: rest)] at h
    obtain ⟨hmem, pre, suf, hsplit, hpre, hsuf⟩ := ih st1 e h
    refine ⟨hmem, 4 :: w1 :: pre, suf, by simpa using hsplit, ?_, hsuf⟩
    rw [runOps_remove styles children st w1 pre]
    exact hpre
  | case25 st op w1 w2 w3 rest h1 h2 h3 h4 =>
    intro st1 e h
    rw [runOps_unknown_op styles children st op (w1 :: w2 :: w3 :: rest)
      h1 h2 h3 h4] at h
    simp only [Prod.mk.injEq, Option.some.injEq] at h
    obtain ⟨rfl, rfl⟩ := h
    exact ⟨by decide, [], op :: w1 :: w2 :: w3 :: rest, rfl,
      runOps_nil styles children st,
      runOps_unknown_op styles children st op (w1 :: w2 :: w3 :: rest) h1 h2 h3 h4⟩

/-- C1 (amended): starting from a registry satisfying its invariant,
each single applied operation preserves it — `UpdateStyle`,
`SetChildren` and `RemoveNode` unconditionally, `CreateLeaf` provided
its external id is not already registered.  In particular the two
registry maps remain exact inverses after each such operation; after a
`CreateLeaf` whose external id IS already registered they do not (see
the counterexample), which is the one proviso added to the claim. -/
theorem c1_registry_inverse (styles : List F32) (children : List ℕ)
    (st : EngineState) (hg : GoodRegistry st) :
    (∀ id off, lookupA id st.nodes = none →
      GoodRegistry (runOps styles children st [1, id, off]).1)
    ∧ (∀ id off, GoodRegistry (runOps styles children st [2, id, off]).1)
    ∧ (∀ id off cnt, GoodRegistry (runOps styles children st [3, id, off, cnt]).1)
    ∧ (∀ id, GoodRegistry (runOps styles children st [4, id]).1) := by
  refine ⟨?_, ?_, ?_, ?_⟩
  · intro id off hfresh
    by_cases hoob : off + STYLE_STRIDE > styles.length
    · rw [runOps_create_oob styles children st id off [] hoob]
      exact hg
    · rw [runOps_create_ok styles children st id off [] hoob, runOps_nil]
      exact goodRegistry_doCreate styles st id off hg hfresh
  · intro id off
    by_cases hoob : off + STYLE_STRIDE > styles.length
    · rw [runOps_update_oob styles children st id off [] hoob]
      exact hg
    · cases hl : lookupA id st.nodes with
      | none =>
        rw [runOps_update_unknown styles children st id off [] hoob hl]
        exact hg
      | some h =>
        rw [runOps_update_found styles children st id off h [] hoob hl, runOps_nil]
        exact goodRegistry_doUpdate styles st h off hg
  · intro id off cnt
    cases hl : lookupA id st.nodes with
    | none =>
      rw [runOps_setchildren_unknown styles children st id off cnt [] hl]
      exact hg
    | some h =>
      by_cases hoob : off + cnt > children.length
      · rw [runOps_setchildren_oob styles children st id off cnt h [] hl hoob]
        exact hg
      · cases hr : resolveAll st.nodes ((children.drop off).take cnt) with
        | none =>
          rw [runOps_setchildren_badchild styles children st id off cnt h [] hl hoob hr]
          exact hg
        | some hs =>
          rw [runOps_setchildren_ok styles children st id off cnt h hs [] hl hoob hr,
            runOps_nil]
          exact goodRegistry_doSetChildren st h hs hg
  · intro id
    rw [runOps_remove, runOps_nil]
    exact goodRegistry_doRemove st id hg

/-- Witness for C1 (amended) at the empty engine: a fresh `CreateLeaf`
and a `RemoveNode` each leave the registry invariant intact. -/
theorem c1_registry_inverse_witness :
    GoodRegistry (runOps zeros28 [] initState [1, 9, 0]).1
    ∧ GoodRegistry (runOps zeros28 [] initState [4, 9]).1 :=
  ⟨(c1_registry_inverse zeros28 [] initState goodRegistry_initState).1 9 0 (by decide),
   (c1_registry_inverse zeros28 [] initState goodRegistry_initState).2.2.2 9⟩

/-- C2: the interpreter is strictly sequential with no rollback.  A
stream that applies without error composes: appending further words
continues from the reached state (so mutations of earlier instructions
stay in effect).  A stream that halts does so with a negative per-cause
code, splitting as a successfully-applied prefix (whose mutations
produced the returned state) followed by the failing instruction, which
fails identically from that state without mutating it — nothing after
the failing instruction is processed.  The per-cause codes are pairwise
distinct. -/
theorem c2_sequential_no_rollback (styles : List F32) (children : List ℕ) :
    (∀ st a st1 b, runOps styles children st a = (st1, none) →
      runOps styles children st (a ++ b) = runOps styles children st1 b)
    ∧ (∀ st ops st1 e, runOps styles children st ops = (st1, some e) →
        e < 0 ∧ e ∈ interpErrorCodes ∧
        ∃ pre suf, ops = pre ++ suf
          ∧ runOps styles children st pre = (st1, none)
          ∧ runOps styles children st1 suf = (st1, some e))
    ∧ interpErrorCodes.Nodup := by
  refine ⟨?_, ?_, by decide⟩
  · intro st a st1 b h
    exact runOps_append styles children st a st1 b h
  · intro st ops st1 e h
    obtain ⟨hmem, hdec⟩ := runOps_error_split styles children st ops st1 e h
    refine ⟨?_, hmem, hdec⟩
    simp only [interpErrorCodes, List.mem_cons, List.not_mem_nil, or_false] at hmem
    omega

/-- Witness for C2: a successful `CreateLeaf` followed by an unknown
opcode 9 — the unknown opcode fails with `-20` from the post-create
state. -/
theorem c2_sequential_no_rollback_witness :
    runOps zeros28 [] initState ([1, 0, 0] ++ [9]) =
      runOps zeros28 [] (runOps zeros28 [] initState [1, 0, 0]).1 [9]
    ∧ ((-20 : Int) < 0 ∧ (-20 : Int) ∈ interpErrorCodes ∧
        ∃ pre suf, ([9] : List ℕ) = pre ++ suf
          ∧ runOps zeros28 [] initState pre = (initState, none)
          ∧ runOps zeros28 [] initState suf = (initState, some (-20))) :=
  ⟨(c2_sequential_no_rollback zeros28 []).1 initState [1, 0, 0]
      (runOps zeros28 [] initState [1, 0, 0]).1 [9] (by decide),
   (c2_sequential_no_rollback zeros28 []).2.1 initState [9] initState (-20) (by decide)⟩

/-- C6: an `UpdateStyle` whose external id is unregistered (style
offset in bounds) fails with the unknown-node code `-14`, the engine
state unchanged, regardless of what follows in the stream; the full
call returns `-14` with the state untouched. -/
theorem c6_update_unknown_id (st : EngineState) (styles : List F32)
    (children : List ℕ) (id off : ℕ) (junk : List ℕ)
    (hoff : off + STYLE_STRIDE ≤ styles.length)
    (hid : lookupA id st.nodes = none) :
    runOps styles children st (2 :: id :: off :: junk) = (st, some (-14))
    ∧ applyOpsAndComputeSt st (2 :: id :: off :: junk) styles children =
      (st, -14) := by
  have hoob : ¬off + STYLE_STRIDE > styles.length := by omega
  have h1 := runOps_update_unknown styles children st id off junk hoob hid
  refine ⟨h1, ?_⟩
  unfold applyOpsAndComputeSt
  rw [h1]

/-- Witness for C6: updating the unregistered id 7 on a fresh engine. -/
theorem c6_update_unknown_id_witness :
    runOps zeros28 [] initState [2, 7, 0] = (initState, some (-14))
    ∧ applyOpsAndComputeSt initState [2, 7, 0] zeros28 [] = (initState, -14) :=
  c6_update_unknown_id initState zeros28 [] 7 0 [] (by decide) (by decide)

/-- C7: a `CreateLeaf` or `UpdateStyle` whose style offset runs past
the style buffer fails with the out-of-bounds code (`-11` and `-13`
respectively) and the engine state — in particular both registry maps —
is unchanged, so nothing is created or registered. -/
theorem c7_style_offset_oob (st : EngineState) (styles : List F32)
    (children : List ℕ) (id off : ℕ) (junk : List ℕ)
    (hoob : off + STYLE_STRIDE > styles.length) :
    (runOps styles children st (1 :: id :: off :: junk) = (st, some (-11))
      ∧ applyOpsAndComputeSt st (1 :: id :: off :: junk) styles children =
        (st, -11))
    ∧ (runOps styles children st (2 :: id :: off :: junk) = (st, some (-13))
      ∧ applyOpsAndComputeSt st (2 :: id :: off :: junk) styles children =
        (st, -13)) := by
  have h1 := runOps_create_oob styles children st id off junk hoob
  have h2 := runOps_update_oob styles children st id off junk hoob
  refine ⟨⟨h1, ?_⟩, ⟨h2, ?_⟩⟩
  · unfold applyOpsAndComputeSt
    rw [h1]
  · unfold applyOpsAndComputeSt
    rw [h2]

/-- Witness for C7: offset 1 with a 28-float style buffer overruns. -/
theorem c7_style_offset_oob_witness :
    (runOps zeros28 [] initState [1, 3, 1] = (initState, some (-11))
      ∧ applyOpsAndComputeSt initState [1, 3, 1] zeros28 [] = (initState, -11))
    ∧ (runOps zeros28 [] initState [2, 3, 1] = (initState, some (-13))
      ∧ applyOpsAndComputeSt initState [2, 3, 1] zeros28 [] = (initState, -13)) :=
  c7_style_offset_oob initState zeros28 [] 3 1 [] (by decide)

/-- C8: after the stream is consumed without error, the call computes
from the node registered at external id 0; if none is registered it
returns `-3` — a code distinct from every malformed-instruction code —
with the state as the interpreter left it and the results buffer still
holding the previous call's contents (no rewrite). -/
theorem c8_missing_root (styles : List F32) (children : List ℕ)
    (st st1 : EngineState) (ops : List ℕ)
    (hrun : runOps styles children st ops = (st1, none)) :
    (lookupA 0 st1.nodes = none →
      applyOpsAndComputeSt st ops styles children = (st1, -3)
      ∧ st1.results_buffer = st.results_buffer)
    ∧ (∀ root, lookupA 0 st1.nodes = some root →
      applyOpsAndComputeSt st ops styles children = (compute_results st1 root, 0))
    ∧ (-3 : Int) ∉ interpErrorCodes := by
  refine ⟨?_, ?_, by decide⟩
  · intro hno
    constructor
    · unfold applyOpsAndComputeSt
      rw [hrun]
      dsimp only
      rw [hno]
    · have hb := runOps_results_buffer styles children st ops
      rw [hrun] at hb
      exact hb
  · intro root hroot
    unfold applyOpsAndComputeSt
    rw [hrun]
    dsimp only
    rw [hroot]

/-- Witness for C8: creating only id 5 leaves no root, so the full call
returns `-3` and the (empty) results buffer is untouched. -/
theorem c8_missing_root_witness :
    applyOpsAndComputeSt initState [1, 5, 0] zeros28 [] =
      ((runOps zeros28 [] initState [1, 5, 0]).1, -3)
    ∧ (runOps zeros28 [] initState [1, 5, 0]).1.results_buffer =
      initState.results_buffer :=
  (c8_missing_root zeros28 [] initState (runOps zeros28 [] initState [1, 5, 0]).1
    [1, 5, 0] (by decide)).1 (by decide)

theorem mem_eraseA {α : Type} {p : ℕ × α} {k : ℕ} {l : List (ℕ × α)}
    (h : p ∈ eraseA k l) : p.1 ≠ k ∧ p ∈ l := by
  induction l with
  | nil => simp [eraseA] at h
  | cons q t ih =>
    obtain ⟨a, b⟩ := q
    by_cases ha : a = k
    · rw [eraseA, if_pos ha] at h
      obtain ⟨h1, h2⟩ := ih h
      exact ⟨h1, List.mem_cons_of_mem _ h2⟩
    · rw [eraseA, if_neg ha] at h
      rcases List.mem_cons.mp h with h1 | h1
      · subst h1
        exact ⟨ha, List.mem_cons_self _ _⟩
      · obtain ⟨h2, h3⟩ := ih h1
        exact ⟨h2, List.mem_cons_of_mem _ h3⟩

/-- Every handle in the reverse registry map is still allocated in the
solver tree (`TaffyTree::layout` succeeds on it).  Orphaned handles —
left behind by a duplicate `CreateLeaf` — keep this property: they are
never removed from the solver. -/
def HandlesLive (st : EngineState) : Prop :=
  ∀ p ∈ st.node_id_map, (lookupA p.1 st.solver.tree).isSome = true

theorem handlesLive_doCreate (styles : List F32) (st : EngineState) (id off : ℕ)
    (hw : HandlesLive st) : HandlesLive (doCreate styles st id off) := by
  intro p hp
  rw [doCreate_node_id_map] at hp
  rcases List.mem_cons.mp hp with h1 | h1
  · subst h1
    rw [show (doCreate styles st id off).solver.tree =
        insertA st.solver.nextId
          ⟨style_from_slice ((styles.drop off).take STYLE_STRIDE), []⟩
          st.solver.tree from rfl]
    rw [lookupA_insertA_self]
    rfl
  · obtain ⟨hne, hmem⟩ := mem_eraseA h1
    rw [show (doCreate styles st id off).solver.tree =
        insertA st.solver.nextId
          ⟨style_from_slice ((styles.drop off).take STYLE_STRIDE), []⟩
          st.solver.tree from rfl]
    rw [lookupA_insertA_ne hne]
    exact hw p hmem

theorem handlesLive_doUpdate (styles : List F32) (st : EngineState) (h off : ℕ)
    (hw : HandlesLive st) : HandlesLive (doUpdate styles st h off) := by
  intro p hp
  rw [show (doUpdate styles st h off).node_id_map = st.node_id_map from rfl] at hp
  rw [show (doUpdate styles st h off).solver.tree =
      st.solver.tree.map (fun q =>
        (q.1, if q.1 = h then
          { q.2 with style := style_from_slice ((styles.drop off).take STYLE_STRIDE) }
          else q.2)) from rfl]
  rw [lookupA_mapVal]
  have hsome := hw p hp
  cases hlook : lookupA p.1 st.solver.tree with
  | none => rw [hlook] at hsome; simp at hsome
  | some v => rfl

theorem handlesLive_doSetChildren (st : EngineState) (h : ℕ) (hs : List ℕ)
    (hw : HandlesLive st) : HandlesLive (doSetChildren st h hs) := by
  intro p hp
  rw [show (doSetChildren st h hs).node_id_map = st.node_id_map from rfl] at hp
  rw [show (doSetChildren st h hs).solver.tree =
      st.solver.tree.map (fun q =>
        (q.1, if q.1 = h then { q.2 with children := hs }
          else { q.2 with children :=
            q.2.children.filter (fun c => decide (c ∉ hs)) })) from rfl]
  rw [lookupA_mapVal]
  have hsome := hw p hp
  cases hlook : lookupA p.1 st.solver.tree with
  | none => rw [hlook] at hsome; simp at hsome
  | some v => rfl

theorem doRemove_none (st : EngineState) (id : ℕ)
    (hl : lookupA id st.nodes = none) : doRemove st id = st := by
  unfold doRemove
  rw [hl]

theorem doRemove_found_node_id_map (st : EngineState) (id hv : ℕ)
    (hl : lookupA id st.nodes = some hv) :
    (doRemove st id).node_id_map = eraseA hv st.node_id_map := by
  unfold doRemove
  rw [hl]

theorem doRemove_found_nodes (st : EngineState) (id hv : ℕ)
    (hl : lookupA id st.nodes = some hv) :
    (doRemove st id).nodes = eraseA id st.nodes := by
  unfold doRemove
  rw [hl]

theorem doRemove_found_tree (st : EngineState) (id hv : ℕ)
    (hl : lookupA id st.nodes = some hv) :
    (doRemove st id).solver.tree = (eraseA hv st.solver.tree).map (fun q =>
      (q.1, { q.2 with children :=
        q.2.children.filter (fun c => decide (c ≠ hv)) })) := by
  unfold doRemove
  rw [hl]
  rfl

theorem handlesLive_doRemove (st : EngineState) (id : ℕ)
    (hw : HandlesLive st) : HandlesLive (doRemove st id) := by
  cases hl : lookupA id st.nodes with
  | none =>
    rw [doRemove_none st id hl]
    exact hw
  | some hv =>
    intro p hp
    rw [doRemove_found_node_id_map st id hv hl] at hp
    obtain ⟨hne, hmem⟩ := mem_eraseA hp
    rw [doRemove_found_tree st id hv hl, lookupA_mapVal, lookupA_eraseA_ne hne]
    have hsome := hw p hmem
    cases hlook : lookupA p.1 st.solver.tree with
    | none => rw [hlook] at hsome; simp at hsome
    | some v => rfl

/-- The interpreter loop preserves handle liveness. -/
theorem runOps_handlesLive (styles : List F32) (children : List ℕ)
    (st : EngineState) (ops : List ℕ) :
    HandlesLive st → HandlesLive (runOps styles children st ops).1 := by
  induction st, ops using runOps.induct styles children with
  | case1 st => exact fun hw => hw
  | case2 st => exact fun hw => hw
  | case3 st h2 => exact fun hw => hw
  | case4 st h31 h32 => exact fun hw => hw
  | case5 st h41 h42 h43 => exact fun hw => hw
  | case6 st op h1 h2 h3 h4 =>
    intro hw
    rw [runOps_unknown_op styles children st op [] h1 h2 h3 h4]
    exact hw
  | case7 st w1 => exact fun hw => hw
  | case8 st w1 h2 => exact fun hw => hw
  | case9 st w1 h31 h32 => exact fun hw => hw
  | case10 st w1 h41 h42 h43 ih =>
    intro hw
    rw [runOps_remove styles children st w1 []]
    exact ih (handlesLive_doRemove st w1 hw)
  | case11 st op w1 h1 h2 h3 h4 =>
    intro hw
    rw [runOps_unknown_op styles children st op [w1] h1 h2 h3 h4]
    exact hw
  | case12 st w1 w2 hoob =>
    intro hw
    rw [runOps_create_oob styles children st w1 w2 [] hoob]
    exact hw
  | case13 st w1 w2 hoob ih =>
    intro hw
    rw [runOps_create_ok styles children st w1 w2 [] hoob]
    exact ih (handlesLive_doCreate styles st w1 w2 hw)
  | case14 st w1 w2 hoob h2 =>
    intro hw
    rw [runOps_update_oob styles children st w1 w2 [] hoob]
    exact hw
  | case15 st w1 w2 hoob h2 ih =>
    intro hw
    cases hl : lookupA w1 st.nodes with
    | none =>
      rw [runOps_update_unknown styles children st w1 w2 [] hoob hl]
      exact hw
    | some hv =>
      rw [runOps_update_found styles children st w1 w2 hv [] hoob hl]
      exact ih hv (handlesLive_doUpdate styles st hv w2 hw)
  | case16 st w1 w2 h31 h32 => exact fun hw => hw
  | case17 st w1 w2 h41 h42 h43 ih =>
    intro hw
    rw [runOps_remove styles children st w1 [w2]]
    exact ih (handlesLive_doRemove st w1 hw)
  | case18 st op w1 w2 h1 h2 h3 h4 =>
    intro hw
    rw [runOps_unknown_op styles children st op [w1, w2] h1 h2 h3 h4]
    exact hw
  | case19 st w1 w2 w3 rest hoob =>
    intro hw
    rw [runOps_create_oob styles children st w1 w2 (w3 :: rest) hoob]
    exact hw
  | case20 st w1 w2 w3 rest hoob ih =>
    intro hw
    rw [runOps_create_ok styles children st w1 w2 (w3 :: rest) hoob]
    exact ih (handlesLive_doCreate styles st w1 w2 hw)
  | case21 st w1 w2 w3 rest hoob h2 =>
    intro hw
    rw [runOps_update_oob styles children st w1 w2 (w3 :: rest) hoob]
    exact hw
  | case22 st w1 w2 w3 rest hoob h2 ih =>
    intro hw
    cases hl : lookupA w1 st.nodes with
    | none =>
      rw [runOps_update_unknown styles children st w1 w2 (w3 :: rest) hoob hl]
      exact hw
    | some hv =>
      rw [runOps_update_found styles children st w1 w2 hv (w3 :: rest) hoob hl]
      exact ih hv (handlesLive_doUpdate styles st hv w2 hw)
  | case23 st w1 w2 w3 rest h31 h32 ih =>
    intro hw
    cases hl : lookupA w1 st.nodes with
    | none =>
      rw [runOps_setchildren_unknown styles children st w1 w2 w3 rest hl]
      exact hw
    | some hv =>
      by_cases hoob : w2 + w3 > children.length
      · rw [runOps_setchildren_oob styles children st w1 w2 w3 hv rest hl hoob]
        exact hw
      · cases hr : resolveAll st.nodes ((children.drop w2).take w3) with
        | none =>
          rw [runOps_setchildren_badchild styles children st w1 w2 w3 hv rest
            hl hoob hr]
          exact hw
        | some hs =>
          rw [runOps_setchildren_ok styles children st w1 w2 w3 hv hs rest
            hl hoob hr]
          exact ih hv hs (handlesLive_doSetChildren st hv hs hw)
  | case24 st w1 w2 w3 rest h41 h42 h43 ih =>
    intro hw
    rw [runOps_remove styles children st w1 (w2 :: w3 :: rest)]
    exact ih (handlesLive_doRemove st w1 hw)
  | case25 st op w1 w2 w3 rest h1 h2 h3 h4 =>
    intro hw
    rw [runOps_unknown_op styles children st op (w1 :: w2 :: w3 :: rest) h1 h2 h3 h4]
    exact hw

theorem foldl_preserve {α : Type} (P : EngineState → Prop)
    (f : EngineState → α → EngineState)
    (hf : ∀ st a, P st → P (f st a)) :
    ∀ (l : List α) (st : EngineState), P st → P (l.foldl f st) := by
  intro l
  induction l with
  | nil => exact fun st h => h
  | cons a t ih => exact fun st h => ih (f st a) (hf st a h)

theorem handlesLive_bulkChildrenStep (nodesBuf : List F32) (childrenBuf : List ℕ)
    (acc : EngineState) (i : ℕ) (hw : HandlesLive acc) :
    HandlesLive (bulkChildrenStep nodesBuf childrenBuf acc i) := by
  unfold bulkChildrenStep
  dsimp only
  split
  · cases hli : lookupA i acc.nodes with
    | some h => exact handlesLive_doSetChildren acc h _ hw
    | none => exact hw
  · exact hw

/-- `compute_results` rewrites only the results buffer; both registry
maps and the solver tree are untouched, so handle liveness is kept. -/
theorem handlesLive_compute_results (st : EngineState) (root : ℕ)
    (hw : HandlesLive st) : HandlesLive (compute_results st root) :=
  hw

/-- The bulk-rebuild path preserves handle liveness: it clears both
maps and the solver tree and rebuilds them leaf by leaf. -/
theorem computeLayoutFromBuffersSt_handlesLive (st : EngineState)
    (nodesBuf : List F32) (childrenBuf : List ℕ) (hw : HandlesLive st) :
    HandlesLive (computeLayoutFromBuffersSt st nodesBuf childrenBuf).1 := by
  unfold computeLayoutFromBuffersSt
  dsimp only
  split
  · exact hw
  · have h1 : HandlesLive
        { st with
          nodes := []
          node_id_map := []
          solver := st.solver.clearTree } := by
      intro p hp
      exact absurd hp (List.not_mem_nil p)
    have h2 := foldl_preserve HandlesLive (bulkCreateStep nodesBuf)
      (fun st2 a hx => handlesLive_doCreate nodesBuf st2 a (a * STYLE_STRIDE) hx)
      (List.range (nodesBuf.length / STYLE_STRIDE)) _ h1
    have h3 := foldl_preserve HandlesLive (bulkChildrenStep nodesBuf childrenBuf)
      (fun st2 a hx => handlesLive_bulkChildrenStep nodesBuf childrenBuf st2 a hx)
      (List.range (nodesBuf.length / STYLE_STRIDE)) _ h2
    split
    · exact h3
    · exact handlesLive_compute_results _ _ h3

/-- The engine states reachable through the exposed mutating entry
points, starting from a fresh instance: `apply_ops_and_compute` calls
(successful or failed — a failed call keeps its partial mutations) and
bulk `compute_layout_from_buffers` calls. -/
inductive Reachable : EngineState → Prop where
  | init : Reachable initState
  | applyStep (st : EngineState) (ops : List ℕ) (styles : List F32)
      (children : List ℕ) : Reachable st →
      Reachable (applyOpsAndComputeSt st ops styles children).1
  | bulkStep (st : EngineState) (nodesBuf : List F32) (childrenBuf : List ℕ) :
      Reachable st →
      Reachable (computeLayoutFromBuffersSt st nodesBuf childrenBuf).1

/-- Every reachable engine state keeps every reverse-map handle
allocated in the solver. -/
theorem reachable_handlesLive (st : EngineState) (hr : Reachable st) :
    HandlesLive st := by
  induction hr with
  | init =>
    intro p hp
    exact absurd hp (List.not_mem_nil p)
  | applyStep st ops styles children hr ih =>
    unfold applyOpsAndComputeSt
    have hrun := runOps_handlesLive styles children st ops ih
    cases h : runOps styles children st ops with
    | mk st1 err =>
      rw [h] at hrun
      cases err with
      | some e => exact hrun
      | none =>
        dsimp only
        cases hroot : lookupA 0 st1.nodes with
        | none => exact hrun
        | some root => exact handlesLive_compute_results st1 root hrun
  | bulkStep st nodesBuf childrenBuf hr ih =>
    exact computeLayoutFromBuffersSt_handlesLive st nodesBuf childrenBuf ih

/-- Under handle liveness, the rewritten results buffer consists of one
5-field record per reverse-map entry, in map-enumeration order: the
length is `RESULT_STRIDE` times the entry count and the id fields are
exactly the external ids of the reverse map. -/
theorem compute_results_length (st : EngineState) (root : ℕ)
    (hw : HandlesLive st) :
    (compute_results st root).results_buffer.length =
      RESULT_STRIDE * st.node_id_map.length
    ∧ recordIds (compute_results st root).results_buffer =
      st.node_id_map.map (fun p => F32.ofId p.2) := by
  have key : ∀ l : List (ℕ × ℕ),
      (∀ p ∈ l, (lookupA p.1 st.solver.tree).isSome = true) →
      (l.flatMap (fun p =>
        match (st.solver.computeLayout root).layoutOf p.1 with
        | some rect => [F32.ofId p.2, rect.x, rect.y, rect.width, rect.height]
        | none => [])).length = RESULT_STRIDE * l.length
      ∧ recordIds (l.flatMap (fun p =>
        match (st.solver.computeLayout root).layoutOf p.1 with
        | some rect => [F32.ofId p.2, rect.x, rect.y, rect.width, rect.height]
        | none => [])) = l.map (fun p => F32.ofId p.2) := by
    intro l
    induction l with
    | nil => exact fun _ => ⟨rfl, rfl⟩
    | cons p t ih =>
      intro hall
      have hp := hall p (List.mem_cons_self p t)
      have ht := ih (fun q hq => hall q (List.mem_cons_of_mem p hq))
      cases hlook : lookupA p.1 st.solver.tree with
      | none => rw [hlook] at hp; simp at hp
      | some node =>
        have hlay : (st.solver.computeLayout root).layoutOf p.1 =
            some ⟨F32.val 0, F32.val 0, F32.val 0, F32.val 0⟩ := by
          show (lookupA p.1 st.solver.tree).map _ = _
          rw [hlook]
          rfl
        constructor
        · rw [List.flatMap_cons, hlay]
          simp only [List.length_append, ht.1, List.length_cons, List.length_nil,
            List.length_map, RESULT_STRIDE]
          ring
        · rw [List.flatMap_cons, hlay, List.map_cons]
          show recordIds (F32.ofId p.2 :: F32.val 0 :: F32.val 0 :: F32.val 0 ::
            F32.val 0 :: _) = _
          rw [recordIds_cons5]
          exact congrArg (List.cons (F32.ofId p.2)) ht.2
  exact key st.node_id_map hw

/-- C3 (amended): after every successful `apply_ops_and_compute` call
from a reachable state, the results buffer has been rewritten to hold
exactly one 5-field record per entry of the reverse registry map
(handle to external id): its length is `RESULT_STRIDE` times that entry
count, and the id fields are exactly that map's external ids.  The
reverse-map entry count equals the live-node count except in states
holding orphaned handles from a duplicate `CreateLeaf` — there the
claim's `5 x (live nodes)` fails (see the counterexample), which is the
one correction. -/
theorem c3_results_rewrite (st : EngineState) (ops : List ℕ)
    (styles : List F32) (children : List ℕ) (st' : EngineState)
    (hreach : Reachable st)
    (hcall : applyOpsAndComputeSt st ops styles children = (st', 0)) :
    st'.results_buffer.length = RESULT_STRIDE * st'.node_id_map.length
    ∧ recordIds st'.results_buffer =
      st'.node_id_map.map (fun p => F32.ofId p.2) := by
  have hw := reachable_handlesLive st hreach
  unfold applyOpsAndComputeSt at hcall
  cases h : runOps styles children st ops with
  | mk st1 err =>
    rw [h] at hcall
    cases err with
    | some e =>
      exfalso
      obtain ⟨hmem, -⟩ := runOps_error_split styles children st ops st1 e h
      simp only [Prod.mk.injEq] at hcall
      obtain ⟨-, rfl⟩ := hcall
      simp [interpErrorCodes] at hmem
    | none =>
      dsimp only at hcall
      cases hroot : lookupA 0 st1.nodes with
      | none =>
        rw [hroot] at hcall
        simp at hcall
      | some root =>
        rw [hroot] at hcall
        simp only [Prod.mk.injEq] at hcall
        obtain ⟨rfl, -⟩ := hcall
        have hw1 : HandlesLive st1 := by
          have := runOps_handlesLive styles children st ops hw
          rw [h] at this
          exact this
        exact compute_results_length st1 root hw1

/-- Witness for C3 (amended): one `CreateLeaf(0)` on a fresh engine
computes a buffer of exactly one record. -/
theorem c3_results_rewrite_witness :
    (applyOpsAndComputeSt initState [1, 0, 0] zeros28 []).1.results_buffer.length =
      RESULT_STRIDE *
        (applyOpsAndComputeSt initState [1, 0, 0] zeros28 []).1.node_id_map.length
    ∧ recordIds (applyOpsAndComputeSt initState [1, 0, 0] zeros28 []).1.results_buffer =
      (applyOpsAndComputeSt initState [1, 0, 0] zeros28 []).1.node_id_map.map
        (fun p => F32.ofId p.2) :=
  c3_results_rewrite initState [1, 0, 0] zeros28 []
    (applyOpsAndComputeSt initState [1, 0, 0] zeros28 []).1
    Reachable.init (by decide)

end LayoutEngine
